import Mathlib

/-!
# Shallow embedding of the MEV protection scanner

This file embeds the mempool aggregation and pattern-detection engine of the
scanner: the five MEV pattern detectors and the risk aggregator
(`src/services/dex-pools.js`, pattern-analyzer section), the legacy detectors
(`src/detectors/frontrun.js` and the sandwich/historical detectors bundled with
`src/database/queries.js`), the WebSocket mempool buffer and reconnect logic
(`src/services/dex-pools.js`, websocket-mempool section), the multi-source
aggregator with its freshness cache (`src/services/mempool-enhanced.js` and
`src/database/queries.js`), and the attack-type / risk-score combination of the
enhanced server (`server-enhanced` entry point).

Numbers that the JavaScript code holds as floating-point values or numeric
strings are modelled as rationals (`ℚ`); the arithmetic involved (comparisons,
sums, divisions, `Math.min`/`Math.max`, `Math.round`) is exact at the small
magnitudes the scanner works with, so `ℚ` is a faithful model.  Timestamps are
modelled as integers (milliseconds resp. seconds).  Network and database I/O is
modelled by explicit oracle values describing the outcome of each upstream
call; a thrown JavaScript exception is an `Except.error`.
-/

namespace MevScanner

/-- JavaScript `Math.round`: round half toward positive infinity. -/
def jsRound (x : ℚ) : ℤ := ⌊x + 1/2⌋

/-- JavaScript `Number.prototype.toFixed 2` viewed as a rational: rounding to
two decimal places (the code formats gas percentiles with it). -/
def round2 (x : ℚ) : ℚ := (jsRound (x * 100) : ℚ) / 100

/-- JavaScript `x || d` on an optional numeric value: `undefined` and `0`
are both falsy and yield the default. -/
def jsOrQ (x : Option ℚ) (d : ℚ) : ℚ :=
  match x with
  | none => d
  | some v => if v = 0 then d else v

/-- Structural-recursion implementation of splitting a character list on the
separator `'/'` (the computation of both JavaScript's `split('/')` and Lean's
`String.splitOn "/"`, written so the kernel can evaluate it). -/
def splitSlashAux : List Char → List Char → List String
  | [], acc => [String.mk acc.reverse]
  | c :: cs, acc =>
    if c = '/' then String.mk acc.reverse :: splitSlashAux cs []
    else splitSlashAux cs (c :: acc)

/-- JavaScript `pair.split('/')`. -/
def splitSlash (s : String) : List String := splitSlashAux s.data []

/-- `isSameOrRelatedPair` from the pattern-analyzer section of
`dex-pools.js`: exact match, reverse match, or sharing at least one token.
An empty (falsy) pair string is never related to anything. -/
def isSameOrRelatedPair (pair1 pair2 : String) : Bool :=
  if pair1 = "" || pair2 = "" then false
  else if pair1 = pair2 then true
  else
    let t1 := splitSlash pair1
    let t2 := splitSlash pair2
    if t1.get? 0 = t2.get? 1 && t1.get? 1 = t2.get? 0 then true
    else t1.any fun t => t2.contains t

/-- `isOppositeDirection` from `dex-pools.js`: the transaction's pair is the
caller's pair with the token order reversed. -/
def isOppositeDirection (txPair : String) (tokenIn tokenOut : String) : Bool :=
  if txPair = "" then false
  else
    let t := splitSlash txPair
    t.get? 0 = some tokenOut && t.get? 1 = some tokenIn

/-- `isRelatedPair` from `mempool-enhanced.js`: the two pairs share a token. -/
def isRelatedPair (pair1 pair2 : String) : Bool :=
  (splitSlash pair1).any fun t => (splitSlash pair2).contains t

/-- Gas-price percentile quadruple (`p25/p50/p75/p90`), in gwei. -/
structure GasPercentiles where
  p25 : ℚ
  p50 : ℚ
  p75 : ℚ
  p90 : ℚ
deriving Repr, DecidableEq

/-- A competing pending-transaction record, as consumed by the detectors.
`gasPrice` and `value` stand for the `parseFloat` of the stored strings;
`amount` is the extra field carried only by legacy simulated records (absent,
i.e. `NaN` under arithmetic, on real mempool records).  The purely
informational `from`/`to`/`timestamp`/`isSuspicious` display fields are never
read by any detector or aggregation step and are omitted. -/
structure Tx where
  hash : String
  gasPrice : ℚ
  value : ℚ
  amount : Option ℚ
  tokenPair : String
  txInput : Option String
deriving Repr, DecidableEq

/-- A mempool snapshot as produced by the aggregator strategies. -/
structure Snapshot where
  tokenPair : String
  currentBlock : ℕ
  blockTimeEstimate : ℕ
  gasPercentiles : GasPercentiles
  competingTxs : List Tx
  pendingTxCount : Option ℕ
  dataSource : String
  confidence : ℚ
  timestamp : ℤ
deriving Repr, DecidableEq

/-- The caller's trade descriptor (`token_in`, `token_out`, `amount_in`,
optional `gas_price`). -/
structure UserTx where
  tokenIn : String
  tokenOut : String
  amountIn : ℚ
  gasPrice : Option ℚ
deriving Repr, DecidableEq

/-- The caller's trading pair string, as built everywhere in the source. -/
def userPair (u : UserTx) : String := u.tokenIn ++ "/" ++ u.tokenOut

/-- The reverse of the caller's trading pair. -/
def reversePair (u : UserTx) : String := u.tokenOut ++ "/" ++ u.tokenIn

/-- The assumed caller gas price: `parseFloat(userTx.gasPrice ||
mempoolData.gasPercentiles.p50)`.  Both the pattern detectors and the legacy
detectors substitute the snapshot's p50 when the caller gave no gas price. -/
def userGasPrice (u : UserTx) (m : Snapshot) : ℚ :=
  u.gasPrice.getD m.gasPercentiles.p50

/-- Sum of the gas prices of a list of records divided by its length
(`reduce(...) / length` in the source; only evaluated on non-empty lists). -/
def avgGasPrice (txs : List Tx) : ℚ :=
  ((txs.map (·.gasPrice)).foldl (· + ·) 0) / txs.length

/-- `checkGasOrdering` from `dex-pools.js`: average front-runner gas above the
caller's price and average back-runner gas below it. -/
def checkGasOrdering (frontRunners backRunners : List Tx) (uGas : ℚ) : Bool :=
  if frontRunners.isEmpty || backRunners.isEmpty then false
  else
    decide (uGas < avgGasPrice frontRunners) && decide (avgGasPrice backRunners < uGas)

/-- `checkGasPositioning` from `dex-pools.js`: average back-runner gas strictly
between 85% of the caller's price and the caller's price. -/
def checkGasPositioning (backRunners : List Tx) (uGas : ℚ) : Bool :=
  if backRunners.isEmpty then false
  else
    decide (avgGasPrice backRunners < uGas) && decide (uGas * 0.85 < avgGasPrice backRunners)

/-- Result of `detectSandwichPattern` (the mapped display records for the
runners are kept as the underlying transaction lists). -/
structure SandwichResult where
  detected : Bool
  confidence : ℚ
  frontRunners : List Tx
  backRunners : List Tx
deriving Repr, DecidableEq

/-- `detectSandwichPattern` from `dex-pools.js`. -/
def detectSandwichPattern (m : Snapshot) (u : UserTx) : SandwichResult :=
  if m.competingTxs.isEmpty then ⟨false, 0, [], []⟩
  else
    let uGas := userGasPrice u m
    let frontRunners := m.competingTxs.filter fun tx =>
      decide (uGas * 1.05 < tx.gasPrice) && isSameOrRelatedPair tx.tokenPair (userPair u)
    let backRunners := m.competingTxs.filter fun tx =>
      decide (tx.gasPrice < uGas * 0.95) && isSameOrRelatedPair tx.tokenPair (userPair u)
        && isOppositeDirection tx.tokenPair u.tokenIn u.tokenOut
    let detected := !frontRunners.isEmpty && !backRunners.isEmpty
    let confidence : ℚ :=
      if detected then
        min (0.6 + (frontRunners.length : ℚ) * 0.1 + (backRunners.length : ℚ) * 0.1 +
          (if checkGasOrdering frontRunners backRunners uGas then 0.2 else 0)) 1
      else 0
    ⟨detected, confidence, frontRunners, backRunners⟩

/-- Result of `detectFrontrunPattern`. -/
structure FrontrunResult where
  detected : Bool
  confidence : ℚ
  competitorCount : ℕ
deriving Repr, DecidableEq

/-- `detectFrontrunPattern` from `dex-pools.js`.  `Math.max(...)` over the
relative gas premiums of the (non-empty) competitor list is modelled by a
fold starting from the first element. -/
def detectFrontrunPattern (m : Snapshot) (u : UserTx) : FrontrunResult :=
  if m.competingTxs.isEmpty then ⟨false, 0, 0⟩
  else
    let uGas := userGasPrice u m
    let competitors := m.competingTxs.filter fun tx =>
      decide (uGas < tx.gasPrice) && isSameOrRelatedPair tx.tokenPair (userPair u)
    match competitors with
    | [] => ⟨false, 0, 0⟩
    | c :: cs =>
      let maxGasDiff := cs.foldl (fun acc tx => max acc ((tx.gasPrice - uGas) / uGas))
        ((c.gasPrice - uGas) / uGas)
      ⟨true, min (0.5 + ((c :: cs).length : ℚ) * 0.1 + maxGasDiff * 0.3) 1, (c :: cs).length⟩

/-- Result of `detectBackrunPattern`. -/
structure BackrunResult where
  detected : Bool
  confidence : ℚ
  backRunners : List Tx
deriving Repr, DecidableEq

/-- `detectBackrunPattern` from `dex-pools.js`. -/
def detectBackrunPattern (m : Snapshot) (u : UserTx) : BackrunResult :=
  if m.competingTxs.isEmpty then ⟨false, 0, []⟩
  else
    let uGas := userGasPrice u m
    let backRunners := m.competingTxs.filter fun tx =>
      decide (tx.gasPrice < uGas) && decide (uGas * 0.8 < tx.gasPrice)
        && isSameOrRelatedPair tx.tokenPair (userPair u)
        && isOppositeDirection tx.tokenPair u.tokenIn u.tokenOut
    if backRunners.isEmpty then ⟨false, 0, []⟩
    else
      ⟨true,
        min (0.4 + (backRunners.length : ℚ) * 0.15 +
          (if checkGasPositioning backRunners uGas then 0.2 else 0)) 1,
        backRunners⟩

/-- Result of `detectCopycatPattern`. -/
structure CopycatResult where
  detected : Bool
  confidence : ℚ
  count : ℕ
deriving Repr, DecidableEq

/-- JavaScript `Math.abs(a - b) / b < 0.1`: division by a zero amount yields
`NaN` or `Infinity`, so the comparison is false. -/
def jsSimilarAmount (a b : ℚ) : Bool :=
  if b = 0 then false else decide (|a - b| / b < 0.1)

/-- `detectCopycatPattern` from `dex-pools.js` (compares the record's `value`
field against the caller's amount). -/
def detectCopycatPattern (m : Snapshot) (u : UserTx) : CopycatResult :=
  if m.competingTxs.isEmpty then ⟨false, 0, 0⟩
  else
    let uGas := userGasPrice u m
    let copycats := m.competingTxs.filter fun tx =>
      decide (tx.tokenPair = userPair u) && jsSimilarAmount tx.value u.amountIn
        && decide (uGas < tx.gasPrice)
    if copycats.isEmpty then ⟨false, 0, 0⟩
    else ⟨true, min (0.7 + (copycats.length : ℚ) * 0.1) 1, copycats.length⟩

/-- Result of `detectJITLiquidityPattern`. -/
structure JitResult where
  detected : Bool
  confidence : ℚ
  count : ℕ
deriving Repr, DecidableEq

/-- JavaScript `s.startsWith(p)`, via structurally recursive list matching so
the kernel can evaluate it. -/
def jsStartsWith (s p : String) : Bool := p.data.isPrefixOf s.data

/-- The add-liquidity method-signature check of `detectJITLiquidityPattern`. -/
def isAddLiquidityInput (i : Option String) : Bool :=
  match i with
  | none => false
  | some s => jsStartsWith s "0xe8e33700" || jsStartsWith s "0xf305d719"

/-- `detectJITLiquidityPattern` from `dex-pools.js`. -/
def detectJITLiquidityPattern (m : Snapshot) (_u : UserTx) : JitResult :=
  if m.competingTxs.isEmpty then ⟨false, 0, 0⟩
  else
    let liquidityTxs := m.competingTxs.filter fun tx => isAddLiquidityInput tx.txInput
    if liquidityTxs.isEmpty then ⟨false, 0, 0⟩
    else ⟨true, 0.6, liquidityTxs.length⟩

/-- The five pattern-detection results of one scan. -/
structure PatternsResult where
  sandwich : SandwichResult
  frontrun : FrontrunResult
  backrun : BackrunResult
  copycat : CopycatResult
  jit : JitResult
deriving Repr, DecidableEq

/-- `analyzeMEVPatterns` from `dex-pools.js` (the detector part). -/
def analyzeMEVPatterns (m : Snapshot) (u : UserTx) : PatternsResult :=
  ⟨detectSandwichPattern m u, detectFrontrunPattern m u, detectBackrunPattern m u,
   detectCopycatPattern m u, detectJITLiquidityPattern m u⟩

/-- One summand of `calculateAggregateRisk`: the guard `data.detected &&
data.confidence` skips detectors whose confidence is falsy (zero). -/
def riskContribution (detected : Bool) (confidence weight : ℚ) : ℚ :=
  if detected = true ∧ confidence ≠ 0 then confidence * weight * 100 else 0

/-- `calculateAggregateRisk` from `dex-pools.js`: weighted sum of fired
detectors, rounded, capped at 100. -/
def calculateAggregateRisk (p : PatternsResult) : ℤ :=
  let totalRisk :=
    riskContribution p.sandwich.detected p.sandwich.confidence 0.4 +
    riskContribution p.frontrun.detected p.frontrun.confidence 0.3 +
    riskContribution p.backrun.detected p.backrun.confidence 0.1 +
    riskContribution p.copycat.detected p.copycat.confidence 0.15 +
    riskContribution p.jit.detected p.jit.confidence 0.05
  min (jsRound totalRisk) 100

/-- Result record shared by the legacy sandwich and front-run detectors
(`risk`, `score`, `type`, `confidence`; evidence details omitted). -/
structure LegacyDetection where
  risk : String
  score : ℚ
  attackType : String
  confidence : ℚ
deriving Repr, DecidableEq

/-- `calculatePriceImpact` from `src/utils/calculations.js` (the simplified
constant-product estimate used by the legacy sandwich detector, with the
default liquidity pool of 1,000,000). -/
def calculatePriceImpactSimple (amountIn : ℚ) : ℚ :=
  min (amountIn / 1000000 * 100) 100

/-- Legacy `detectSandwich` from `src/detectors/sandwich.js`. -/
def detectSandwich (u : UserTx) (m : Snapshot) : LegacyDetection :=
  let userAmount := u.amountIn
  let uGas := userGasPrice u m
  let pair := userPair u
  let samePairTxs := m.competingTxs.filter fun tx =>
    decide (tx.tokenPair = pair) || decide (tx.tokenPair = reversePair u)
  if samePairTxs.isEmpty then ⟨"low", 10, "none", 0.9⟩
  else
    let frontRunners := samePairTxs.filter fun tx =>
      decide (uGas * 1.05 < tx.gasPrice) && decide (tx.tokenPair = pair)
    let backRunners := samePairTxs.filter fun tx =>
      decide (tx.gasPrice < uGas * 0.95) && decide (tx.tokenPair = reversePair u)
    if !frontRunners.isEmpty && !backRunners.isEmpty then
      let priceImpact := calculatePriceImpactSimple userAmount
      let riskScore : ℚ := 70 + min ((frontRunners.length : ℚ) * 5) 15
        + (if 10000 < userAmount then 5 else 0) + (if 50000 < userAmount then 5 else 0)
        + (if 1 < priceImpact then 5 else 0) + (if 2 < priceImpact then 5 else 0)
      ⟨if 85 ≤ riskScore then "critical" else "high", min riskScore 100, "sandwich", 0.85⟩
    else if !frontRunners.isEmpty then
      ⟨"medium", 50 + (frontRunners.length : ℚ) * 5, "potential-sandwich", 0.6⟩
    else
      ⟨"low", 20 + (samePairTxs.length : ℚ) * 3, "none", 0.7⟩

/-- Legacy `detectFrontRun` from `src/detectors/frontrun.js`. -/
def detectFrontRun (u : UserTx) (m : Snapshot) : LegacyDetection :=
  let uGas := userGasPrice u m
  let pair := userPair u
  let similarTxs := m.competingTxs.filter fun tx => decide (tx.tokenPair = pair)
  if similarTxs.isEmpty then ⟨"low", 5, "none", 0.9⟩
  else
    let highGasCompetitors := similarTxs.filter fun tx => decide (uGas * 1.1 < tx.gasPrice)
    let veryHighGasCompetitors := similarTxs.filter fun tx => decide (uGas * 1.25 < tx.gasPrice)
    let riskScore0 : ℚ :=
      if !veryHighGasCompetitors.isEmpty then 70 + (veryHighGasCompetitors.length : ℚ) * 5
      else if !highGasCompetitors.isEmpty then 50 + (highGasCompetitors.length : ℚ) * 5
      else 20 + (similarTxs.length : ℚ) * 3
    let riskScore := min riskScore0 100
    if !veryHighGasCompetitors.isEmpty then
      ⟨if 85 ≤ riskScore then "critical" else "high", riskScore, "front-run", 0.75⟩
    else if !highGasCompetitors.isEmpty then ⟨"medium", riskScore, "front-run", 0.6⟩
    else ⟨"low", riskScore, "none", 0.8⟩

/-- Result of the legacy `detectCopycat` detector. -/
structure LegacyCopycat where
  detected : Bool
  count : ℕ
  riskIncrease : ℚ
deriving Repr, DecidableEq

/-- Legacy `detectCopycat` from `src/detectors/frontrun.js` (compares the
record's `amount` field against the caller's amount; records without an
`amount` field never match since `NaN` comparisons are false). -/
def detectCopycat (u : UserTx) (m : Snapshot) : LegacyCopycat :=
  let userAmount := u.amountIn
  let uGas := userGasPrice u m
  let pair := userPair u
  let copycatTxs := m.competingTxs.filter fun tx =>
    decide (tx.tokenPair = pair)
      && (match tx.amount with
          | none => false
          | some a => jsSimilarAmount a userAmount)
      && decide (uGas * 1.05 < tx.gasPrice)
  if copycatTxs.isEmpty then ⟨false, 0, 0⟩ else ⟨true, copycatTxs.length, 20⟩

/-- `determineAttackType` from the enhanced server: pattern-analysis precedence
first, then fallback to the legacy detectors. -/
def determineAttackType (patterns : PatternsResult) (sandwichRisk frontRunRisk : LegacyDetection)
    (copycatRisk : LegacyCopycat) : String :=
  if patterns.sandwich.detected = true ∧ 0.7 < patterns.sandwich.confidence then "sandwich"
  else if patterns.copycat.detected = true ∧ 0.7 < patterns.copycat.confidence then
    "copycat-frontrun"
  else if patterns.frontrun.detected = true ∧ 0.6 < patterns.frontrun.confidence then "front-run"
  else if patterns.backrun.detected = true ∧ 0.6 < patterns.backrun.confidence then "back-run"
  else if patterns.jit.detected = true ∧ 0.6 < patterns.jit.confidence then "jit-liquidity"
  else if copycatRisk.detected then "copycat-frontrun"
  else if frontRunRisk.score * 0.9 ≤ sandwichRisk.score then sandwichRisk.attackType
  else frontRunRisk.attackType

/-- The attack type reported by one full scan of the enhanced server
(`determineAttackType` applied to the pattern analysis and the legacy
detectors, all running on the same snapshot and trade). -/
def scanAttackType (m : Snapshot) (u : UserTx) : String :=
  determineAttackType (analyzeMEVPatterns m u) (detectSandwich u m) (detectFrontRun u m)
    (detectCopycat u m)

/-- The congestion score of `analyzeMempoolCongestion` in `dex-pools.js`
(`pendingTxCount` missing or zero is falsy and leaves the score at 0). -/
def congestionScoreOf (m : Snapshot) : ℚ :=
  match m.pendingTxCount with
  | none => 0
  | some n =>
    if n = 0 then 0
    else if 1000 < n then 90 else if 500 < n then 70 else if 200 < n then 40 else 20

/-- The final risk score of the enhanced server's scan handler:
60% pattern aggregate, 40% legacy weighted blend (`Math.max` of a single
argument is that argument), plus price-impact and congestion contributions,
rounded and capped at 100.  `historicalRiskScore` is the score of the
database-backed historical analyzer, `priceImpactPct` the parsed price impact
of the DEX pool module. -/
def scanRiskScore (m : Snapshot) (u : UserTx) (historicalRiskScore priceImpactPct : ℚ) : ℤ :=
  let patternRiskScore := calculateAggregateRisk (analyzeMEVPatterns m u)
  let legacyRiskScore := (detectSandwich u m).score * 0.45 + (detectFrontRun u m).score * 0.35
    + historicalRiskScore * 0.2
  let combinedRisk := (patternRiskScore : ℚ) * 0.6 + legacyRiskScore * 0.4
  let priceImpactRisk : ℚ := if 2 < priceImpactPct then 10 else 0
  let congestionRisk := congestionScoreOf m * 0.1
  min (jsRound (combinedRisk + priceImpactRisk + congestionRisk)) 100

/-- The fixed default percentile quadruple used whenever no sample exists. -/
def defaultGasPercentiles : GasPercentiles := ⟨20, 35, 50, 80⟩

/-- Nearest-rank index `Math.floor(n * pct/100)` (the multipliers 0.25, 0.5,
0.75, 0.9 are exact at these magnitudes, so the float floor agrees with
natural division). -/
def pctIndex (n : ℕ) (pct : ℕ) : ℕ := n * pct / 100

/-- The gas-percentile computation of `fetchFromWebSocketCache` applied to the
already sorted positive gas-price sample: index with `Math.floor(n*q)`, each
entry guarded by a `|| default` fallback, formatted with `toFixed 2`; the
whole quadruple is replaced by the fixed defaults on an empty sample. -/
def wsGasPercentiles (sorted : List ℚ) : GasPercentiles :=
  if 0 < sorted.length then
    ⟨round2 (jsOrQ (sorted.get? (pctIndex sorted.length 25)) 20),
     round2 (jsOrQ (sorted.get? (pctIndex sorted.length 50)) 35),
     round2 (jsOrQ (sorted.get? (pctIndex sorted.length 75)) 50),
     round2 (jsOrQ (sorted.get? (pctIndex sorted.length 90)) 80)⟩
  else defaultGasPercentiles

/-- `getGasPricePercentiles` from `mempool-enhanced.js`: sample the base fees
of the last five blocks (given here as the gwei sample, `none` when the block
fetch threw and the catch returned the defaults), sort ascending, index by
nearest rank and scale by the fixed multipliers 1.1 / 1.25 / 1.5 / 2. -/
def getGasPricePercentiles (baseFeeSample : Option (List ℚ)) : GasPercentiles :=
  match baseFeeSample with
  | none => defaultGasPercentiles
  | some baseFees =>
    if baseFees.isEmpty then defaultGasPercentiles
    else
      let s := baseFees.mergeSort
      ⟨round2 (s.getD (pctIndex s.length 25) 0 * 1.1),
       round2 (s.getD (pctIndex s.length 50) 0 * 1.25),
       round2 (s.getD (pctIndex s.length 75) 0 * 1.5),
       round2 (s.getD (pctIndex s.length 90) 0 * 2)⟩

/-- The module-level `pendingTxCache` of the websocket-mempool section. -/
structure PendingTxCacheState where
  transactions : List Tx
  lastUpdate : ℤ
  isConnected : Bool
  source : String
deriving Repr, DecidableEq

/-- `MAX_CACHED_TXS` (buffer capacity). -/
def MAX_CACHED_TXS : ℕ := 100

/-- `CACHE_TTL` of the websocket buffer, in milliseconds. -/
def WS_CACHE_TTL : ℤ := 5000

/-- `addToPendingCache`: insert at the head (`unshift`), truncate to the most
recent `MAX_CACHED_TXS` records, stamp the update time. -/
def addToPendingCache (c : PendingTxCacheState) (tx : Tx) (nowMs : ℤ) : PendingTxCacheState :=
  let txs := tx :: c.transactions
  { c with
    transactions := if MAX_CACHED_TXS < txs.length then txs.take MAX_CACHED_TXS else txs,
    lastUpdate := nowMs }

/-- Result of `getCachedPendingTransactions` (the stale branch carries no
`totalCached` field). -/
structure WsData where
  transactions : List Tx
  isRealTime : Bool
  source : String
  totalCached : Option ℕ
deriving Repr, DecidableEq

/-- `getCachedPendingTransactions` from the websocket-mempool section: empty
result if the buffer is stale, otherwise the first 20 records (the token-pair
filter in the source keeps every record). -/
def getCachedPendingTransactions (c : PendingTxCacheState) (nowMs : ℤ) : WsData :=
  if WS_CACHE_TTL < nowMs - c.lastUpdate then
    ⟨[], false, c.source, none⟩
  else
    ⟨c.transactions.take 20, c.isConnected, c.source, some c.transactions.length⟩

/-- Result of `getWebSocketStatus`. -/
structure WsStatus where
  isConnected : Bool
  source : String
  cachedTransactions : ℕ
  lastUpdate : ℤ
  cacheAge : ℤ
deriving Repr, DecidableEq

/-- `getWebSocketStatus` from the websocket-mempool section. -/
def getWebSocketStatus (c : PendingTxCacheState) (nowMs : ℤ) : WsStatus :=
  ⟨c.isConnected, c.source, c.transactions.length, c.lastUpdate, nowMs - c.lastUpdate⟩

/-- The subscriber state touched by the socket lifecycle callbacks of
`initializeInfuraWebSocket`: the connection flag and source label of
`pendingTxCache` plus the module-level `reconnectAttempts` counter. -/
structure SubscriberState where
  isConnected : Bool
  source : String
  reconnectAttempts : ℕ
deriving Repr, DecidableEq

/-- `MAX_RECONNECT_ATTEMPTS`. -/
def MAX_RECONNECT_ATTEMPTS : ℕ := 5

/-- The socket lifecycle events handled by `initializeInfuraWebSocket`. -/
inductive SocketEvent where
  | opened
  | message
  | errored
  | closed
deriving Repr, DecidableEq

/-- One step of the reconnect state machine: the handlers registered by
`initializeInfuraWebSocket`.  The returned flag records whether the close
handler scheduled a reconnect (`setTimeout(initializeInfuraWebSocket, 5000)`).
The message handler only touches the record buffer, not this state. -/
def wsStep (s : SubscriberState) : SocketEvent → SubscriberState × Bool
  | .opened => ({ isConnected := true, source := "infura", reconnectAttempts := 0 }, false)
  | .message => (s, false)
  | .errored => ({ s with isConnected := false }, false)
  | .closed =>
    if s.reconnectAttempts < MAX_RECONNECT_ATTEMPTS then
      ({ isConnected := false, source := "none",
         reconnectAttempts := s.reconnectAttempts + 1 }, true)
    else ({ s with isConnected := false, source := "none" }, false)

/-- Apply `n` consecutive close events (connection failures). -/
def applyCloses : ℕ → SubscriberState → SubscriberState
  | 0, s => s
  | n + 1, s => applyCloses n (wsStep s .closed).1

/-- One row of the `mempool_cache` table (`cached_at` defaults to the insert
time in seconds; `data` is the JSON round-trip of the snapshot, which is the
identity on the stored fields). -/
structure CacheEntry where
  tokenPair : String
  cachedAt : ℤ
  data : Snapshot
deriving Repr, DecidableEq

/-- `ORDER BY cached_at DESC LIMIT 1` over a row list: keep the row with the
greatest `cached_at` (the first such row on ties). -/
def pickLatest (l : List CacheEntry) : Option CacheEntry :=
  l.foldl (fun acc e =>
    match acc with
    | none => some e
    | some a => if a.cachedAt < e.cachedAt then some e else some a) none

/-- `getCachedMempoolData` from `src/database/queries.js` with the default
`maxAgeSeconds = 3`: the freshest matching row newer than `now - 3`. -/
def getCachedMempoolData (cache : List CacheEntry) (pair : String) (now : ℤ) : Option Snapshot :=
  (pickLatest (cache.filter fun e =>
    decide (e.tokenPair = pair) && decide (now - 3 < e.cachedAt))).map (·.data)

/-- `cacheMempoolData` from `src/database/queries.js`: delete rows older than
ten seconds, then insert the new row stamped `now`. -/
def cacheMempoolData (cache : List CacheEntry) (pair : String) (s : Snapshot) (now : ℤ) :
    List CacheEntry :=
  (cache.filter fun e => !decide (e.cachedAt < now - 10)) ++ [⟨pair, now, s⟩]

/-- `fetchFromWebSocketCache` from `mempool-enhanced.js`: read the buffer,
bail out when it is not real-time, compute percentiles from the positive
parsed gas prices of the returned records, and build the 0.98-confidence
snapshot. -/
def fetchFromWebSocketCache (buf : PendingTxCacheState) (nowMs : ℤ)
    (tokenIn tokenOut : String) : Option Snapshot :=
  let wsData := getCachedPendingTransactions buf nowMs
  if !wsData.isRealTime then none
  else
    let gasPrices := ((wsData.transactions.map (·.gasPrice)).filter fun gp =>
      decide (0 < gp)).mergeSort
    some
      { tokenPair := tokenIn ++ "/" ++ tokenOut
        currentBlock := 0
        blockTimeEstimate := 12
        gasPercentiles := wsGasPercentiles gasPrices
        competingTxs := wsData.transactions
        pendingTxCount := wsData.totalCached
        dataSource := "real-mempool-" ++ wsData.source
        confidence := 0.98
        timestamp := nowMs / 1000 }

/-- The parsed Blocknative block-prices response (`none` models every failure
caught inside `fetchFromBlocknative`: HTTP error, missing `blockPrices`,
thrown exception). -/
structure BlocknativeData where
  blockNumber : ℕ
  estimatedTransactionCount : ℕ
  estimatedPrices : List ℚ
deriving Repr, DecidableEq

/-- `fetchFromBlocknative` from `mempool-enhanced.js`: percentiles from the
estimated-price entries at indices 0, 1, 2 and 4 with the fixed fallbacks;
no competing transactions (`getCompetingTransactionsBlocknative` returns an
empty list); confidence 0.95. -/
def fetchFromBlocknative (bn : Option BlocknativeData) (tokenIn tokenOut : String)
    (now : ℤ) : Option Snapshot :=
  bn.map fun d =>
    { tokenPair := tokenIn ++ "/" ++ tokenOut
      currentBlock := d.blockNumber
      blockTimeEstimate := if 200 < d.estimatedTransactionCount then 13 else 12
      gasPercentiles :=
        ⟨(d.estimatedPrices.get? 0).getD 20, (d.estimatedPrices.get? 1).getD 35,
         (d.estimatedPrices.get? 2).getD 50, (d.estimatedPrices.get? 4).getD 80⟩
      competingTxs := []
      pendingTxCount := none
      dataSource := "blocknative"
      confidence := 0.95
      timestamp := now }

/-- A raw pending transaction as delivered by the node RPC pending-block
query (wei-denominated fields). -/
structure RawTx where
  hash : String
  sender : String
  recipient : Option String
  gasPriceWei : Option ℚ
  maxFeePerGasWei : Option ℚ
  valueWei : ℚ
  txInput : Option String
deriving Repr, DecidableEq

/-- The ten swap method signatures recognized by `isLikelySwapTransaction`. -/
def swapSignaturesRPC : List String :=
  ["0x38ed1739", "0x8803dbee", "0x7ff36ab5", "0x18cbafe5", "0xfb3bdb41",
   "0x4a25d94a", "0x414bf389", "0xc04b8d59", "0xdb3e2198", "0x09b81346"]

/-- JavaScript `s.slice(0, 10)` (the method-signature slice). -/
def jsTake10 (s : String) : String := String.mk (s.data.take 10)

/-- `isLikelySwapTransaction` from `mempool-enhanced.js`. -/
def isLikelySwapTransaction (tx : RawTx) : Bool :=
  match tx.txInput with
  | none => false
  | some s => if s.data.length < 10 then false else swapSignaturesRPC.contains (jsTake10 s)

/-- `ethers.formatUnits(x, 'gwei')` as a rational. -/
def weiToGwei (x : ℚ) : ℚ := x / 1000000000

/-- `ethers.formatEther x` as a rational. -/
def weiToEther (x : ℚ) : ℚ := x / 1000000000000000000

/-- `tx.gasPrice || tx.maxFeePerGas || BigInt(0)`: a missing or zero first
field falls through (`0n` is falsy). -/
def jsOrWei (a b : Option ℚ) : ℚ :=
  match a with
  | some x => if x = 0 then b.getD 0 else x
  | none => b.getD 0

/-- `isSuspiciousTransaction` from `mempool-enhanced.js`: absent caller gas
price means not suspicious; otherwise the relative premium must exceed 10%
(a zero caller gas price makes the JavaScript quotient infinite, hence any
positive premium counts). -/
def isSuspiciousTransaction (tx : RawTx) (userGas : Option ℚ) : Bool :=
  match userGas with
  | none => false
  | some ug =>
    let txGas := jsOrWei tx.gasPriceWei tx.maxFeePerGasWei
    if ug = 0 then decide (0 < txGas)
    else decide ((1:ℚ)/10 < (txGas - ug) / ug)

/-- `analyzePendingTransactions` from `mempool-enhanced.js`: keep swap-looking
transactions whose (always `"UNKNOWN/UNKNOWN"`) extracted pair equals or is
related to the caller's pair, normalized to competing records. -/
def analyzePendingTransactions (pendingTxs : List RawTx) (tokenIn tokenOut : String)
    (_userGas : Option ℚ) : List Tx :=
  let pair := tokenIn ++ "/" ++ tokenOut
  pendingTxs.filterMap fun tx =>
    if isLikelySwapTransaction tx then
      let txTokenPair := "UNKNOWN/UNKNOWN"
      if decide (txTokenPair = pair) || isRelatedPair txTokenPair pair then
        some
          { hash := tx.hash
            gasPrice := weiToGwei (jsOrWei tx.gasPriceWei tx.maxFeePerGasWei)
            value := weiToEther tx.valueWei
            amount := none
            tokenPair := txTokenPair
            txInput := tx.txInput.map jsTake10 }
      else none
    else none

/-- The data the node RPC strategy observes when its inner try block runs
(`none` for the whole record models the caught inner failure that makes
`fetchFromEthereumRPC` return null). -/
structure RpcData where
  currentBlock : ℕ
  pendingTxs : List RawTx
  baseFeeSample : Option (List ℚ)
deriving Repr, DecidableEq

/-- `fetchFromEthereumRPC` from `mempool-enhanced.js`.  `getProvider()` is
awaited before the try/catch, so a provider failure escapes as an exception
instead of producing the null that advances the fallback chain. -/
def fetchFromEthereumRPC (provider : Except String Unit) (rpc : Option RpcData)
    (tokenIn tokenOut : String) (userGas : Option ℚ) (now : ℤ) :
    Except String (Option Snapshot) :=
  match provider with
  | .error e => .error e
  | .ok _ => .ok (rpc.map fun r =>
      let pending := r.pendingTxs.take 100
      { tokenPair := tokenIn ++ "/" ++ tokenOut
        currentBlock := r.currentBlock
        blockTimeEstimate := 12
        gasPercentiles := getGasPricePercentiles r.baseFeeSample
        competingTxs := analyzePendingTransactions pending tokenIn tokenOut userGas
        pendingTxCount := some pending.length
        dataSource := "ethereum-rpc"
        confidence := 0.85
        timestamp := now })

/-- The data the recent-block heuristic observes inside its try block. -/
structure RecentBlocksData where
  currentBlock : ℕ
  baseFeeSample : Option (List ℚ)
  blockTxCounts : List ℕ
deriving Repr, DecidableEq

/-- `getSimulatedMempoolData` from `mempool-enhanced.js`: the deterministic
baseline snapshot. -/
def getSimulatedMempoolData (tokenIn tokenOut : String) (now : ℤ) : Snapshot :=
  { tokenPair := tokenIn ++ "/" ++ tokenOut
    currentBlock := 0
    blockTimeEstimate := 12
    gasPercentiles := defaultGasPercentiles
    competingTxs := []
    pendingTxCount := none
    dataSource := "simulated"
    confidence := 0.5
    timestamp := now }

/-- `analyzeRecentBlocks` from `mempool-enhanced.js`.  As in
`fetchFromEthereumRPC`, `getProvider()` is awaited before the try/catch, so a
provider failure escapes instead of reaching the simulated-data fallback in
the catch. -/
def analyzeRecentBlocks (provider : Except String Unit) (blocks : Option RecentBlocksData)
    (tokenIn tokenOut : String) (now : ℤ) : Except String Snapshot :=
  match provider with
  | .error e => .error e
  | .ok _ =>
    .ok (match blocks with
      | none => getSimulatedMempoolData tokenIn tokenOut now
      | some b =>
        let avgTxCount : ℚ := ((b.blockTxCounts.map fun n => (n : ℚ)).foldl (· + ·) 0) / 3
        { tokenPair := tokenIn ++ "/" ++ tokenOut
          currentBlock := b.currentBlock
          blockTimeEstimate := if 200 < avgTxCount then 13 else 12
          gasPercentiles := getGasPricePercentiles b.baseFeeSample
          competingTxs := []
          pendingTxCount := none
          dataSource := "block-analysis"
          confidence := 0.7
          timestamp := now })

/-- The outcome of every upstream interaction one `getRealMempoolData` call
can perform. -/
structure AggregatorEnv where
  nowMs : ℤ
  buffer : PendingTxCacheState
  blocknativeKey : Bool
  blocknative : Option BlocknativeData
  provider : Except String Unit
  rpc : Option RpcData
  recentBlocks : Option RecentBlocksData
deriving Repr

/-- The fallback chain of `getRealMempoolData` (websocket buffer, Blocknative,
node RPC, recent blocks), together with the list of acquisition strategies it
invoked.  The chain itself never touches the freshness cache; the caller
stores whichever snapshot it produced. -/
def tryFallbackChain (env : AggregatorEnv) (tokenIn tokenOut : String)
    (userGas : Option ℚ) : Except String Snapshot × List String :=
  let now := env.nowMs / 1000
  let ws := getWebSocketStatus env.buffer env.nowMs
  let wsCond := ws.isConnected &&
    ((decide (0 < ws.cachedTransactions) && decide (ws.cacheAge < 10000)) ||
     (decide (ws.lastUpdate = 0) || decide (ws.cacheAge < 60000)))
  let step0 := if wsCond then fetchFromWebSocketCache env.buffer env.nowMs tokenIn tokenOut
    else none
  let trace0 := if wsCond then ["websocket-cache"] else []
  match step0 with
  | some s => (.ok s, trace0)
  | none =>
    let step1 := if env.blocknativeKey then fetchFromBlocknative env.blocknative tokenIn tokenOut now
      else none
    let trace1 := trace0 ++ (if env.blocknativeKey then ["blocknative"] else [])
    match step1 with
    | some s => (.ok s, trace1)
    | none =>
      match fetchFromEthereumRPC env.provider env.rpc tokenIn tokenOut userGas now with
      | .error e => (.error e, trace1 ++ ["ethereum-rpc"])
      | .ok (some s) => (.ok s, trace1 ++ ["ethereum-rpc"])
      | .ok none =>
        let trace2 := trace1 ++ ["ethereum-rpc", "block-analysis"]
        match analyzeRecentBlocks env.provider env.recentBlocks tokenIn tokenOut now with
        | .error e => (.error e, trace2)
        | .ok s => (.ok s, trace2)

/-- `getRealMempoolData` from `mempool-enhanced.js`: cache lookup first, then
the fallback chain, caching every freshly produced snapshot (in the source
each strategy branch calls `cacheMempoolData` right before returning, which
is the same as caching the chain's successful result here).  Besides the
result and the updated cache it returns the list of acquisition strategies
that were invoked, which is empty exactly on a cache hit. -/
def getRealMempoolData (env : AggregatorEnv) (cache : List CacheEntry)
    (tokenIn tokenOut : String) (userGas : Option ℚ) :
    Except String Snapshot × List CacheEntry × List String :=
  let pair := tokenIn ++ "/" ++ tokenOut
  let now := env.nowMs / 1000
  match getCachedMempoolData cache pair now with
  | some cached => (.ok cached, cache, [])
  | none =>
    match tryFallbackChain env tokenIn tokenOut userGas with
    | (.ok s, tr) => (.ok s, cacheMempoolData cache pair s now, tr)
    | (.error e, tr) => (.error e, cache, tr)

/-! ## Helper lemmas -/

theorem riskContribution_eq (d : Bool) (c w : ℚ) :
    riskContribution d c w = if d = true then c * w * 100 else 0 := by
  unfold riskContribution
  by_cases hd : d = true <;> by_cases hc : c = 0 <;> simp [hd, hc]

theorem jsRound_nonneg {x : ℚ} (hx : 0 ≤ x) : 0 ≤ jsRound x := by
  unfold jsRound
  have : (0:ℚ) ≤ x + 1/2 := by linarith
  exact Int.le_floor.mpr (by exact_mod_cast this)

theorem jsRound_mono {a b : ℚ} (h : a ≤ b) : jsRound a ≤ jsRound b := by
  unfold jsRound
  exact Int.floor_le_floor (by linarith)

theorem round2_mono {a b : ℚ} (h : a ≤ b) : round2 a ≤ round2 b := by
  unfold round2
  have h1 : jsRound (a * 100) ≤ jsRound (b * 100) := jsRound_mono (by nlinarith)
  have h2 : ((jsRound (a * 100) : ℚ)) ≤ (jsRound (b * 100) : ℚ) := by exact_mod_cast h1
  linarith

/-! ## C2: the aggregate risk score formula -/

/-- C2.  For every five-tuple of pattern-detection results, the aggregate risk
score equals the rounded value of the sum, over exactly the detectors that
fired, of confidence × weight × 100 with the fixed weights Sandwich 0.40,
Front-Run 0.30, Copycat 0.15, Back-Run 0.10, JIT 0.05, capped at 100;
detectors with `detected = false` contribute nothing.  (The source
additionally skips a fired detector whose confidence is zero, which
contributes nothing to the sum either, so the two readings agree.) -/
theorem C2_aggregate_weighted_sum (p : PatternsResult) :
    calculateAggregateRisk p =
      min (jsRound
        ((if p.sandwich.detected = true then p.sandwich.confidence * 0.4 * 100 else 0) +
         (if p.frontrun.detected = true then p.frontrun.confidence * 0.3 * 100 else 0) +
         (if p.backrun.detected = true then p.backrun.confidence * 0.1 * 100 else 0) +
         (if p.copycat.detected = true then p.copycat.confidence * 0.15 * 100 else 0) +
         (if p.jit.detected = true then p.jit.confidence * 0.05 * 100 else 0))) 100 := by
  unfold calculateAggregateRisk
  rw [riskContribution_eq, riskContribution_eq, riskContribution_eq, riskContribution_eq,
    riskContribution_eq]

/-! ## C9: the reconnect state machine -/

/-- The connected flag exposed by the subscriber's status query
(`getWebSocketStatus().isConnected`). -/
def statusConnected (s : SubscriberState) : Bool := s.isConnected

/-- C9.  Every socket close increments the retry counter and schedules a
reconnect exactly while the counter is below the cap of 5; after a successful
open followed by 5 consecutive connection failures the counter is 5, the 6th
close schedules no reconnect, and the status query reports `connected =
false`; every successful connection resets the counter to zero. -/
theorem C9_reconnect_policy (s : SubscriberState) :
    ((wsStep s .opened).1.reconnectAttempts = 0)
    ∧ ((wsStep s .closed).2 = decide (s.reconnectAttempts < MAX_RECONNECT_ATTEMPTS))
    ∧ ((wsStep s .closed).1.reconnectAttempts =
        if s.reconnectAttempts < MAX_RECONNECT_ATTEMPTS then s.reconnectAttempts + 1
        else s.reconnectAttempts)
    ∧ (statusConnected (wsStep s .closed).1 = false)
    ∧ ((applyCloses 5 (wsStep s .opened).1).reconnectAttempts = 5
        ∧ (wsStep (applyCloses 5 (wsStep s .opened).1) .closed).2 = false
        ∧ statusConnected (applyCloses 5 (wsStep s .opened).1) = false) := by
  refine ⟨rfl, ?_, ?_, ?_, ?_, ?_, ?_⟩
  · unfold wsStep
    by_cases h : s.reconnectAttempts < MAX_RECONNECT_ATTEMPTS <;> simp [h]
  · unfold wsStep
    by_cases h : s.reconnectAttempts < MAX_RECONNECT_ATTEMPTS <;> simp [h]
  · unfold statusConnected wsStep
    by_cases h : s.reconnectAttempts < MAX_RECONNECT_ATTEMPTS <;> simp [h]
  · rfl
  · rfl
  · rfl

/-! ## C10: the 20-record read bound on the 100-record buffer -/

/-- C10.  The pending-transaction buffer inserts at the head and retains at
most 100 records (evicting from the tail), every read of the buffer returns
at most its first 20 records, and every snapshot built from the buffer
carries those at-most-20 records as its competing-transaction list. -/
theorem C10_buffer_read_bound :
    (∀ c tx nowMs, (addToPendingCache c tx nowMs).transactions =
        (tx :: c.transactions).take MAX_CACHED_TXS)
    ∧ (∀ c tx nowMs, (addToPendingCache c tx nowMs).transactions.head? = some tx)
    ∧ (∀ c tx nowMs, (addToPendingCache c tx nowMs).transactions.length =
        min (c.transactions.length + 1) MAX_CACHED_TXS)
    ∧ (∀ c nowMs, (getCachedPendingTransactions c nowMs).transactions.length ≤ 20)
    ∧ (∀ buf nowMs tokenIn tokenOut,
        ((fetchFromWebSocketCache buf nowMs tokenIn tokenOut).map
          (fun s => s.competingTxs.length)).getD 0 ≤ 20) := by
  have htake : ∀ c tx (nowMs : ℤ), (addToPendingCache c tx nowMs).transactions =
      (tx :: c.transactions).take MAX_CACHED_TXS := by
    intro c tx nowMs
    unfold addToPendingCache
    by_cases h : MAX_CACHED_TXS < (tx :: c.transactions).length
    · simp [h]
    · simp only [h, if_false]
      exact (List.take_of_length_le (Nat.le_of_not_lt h)).symm
  refine ⟨htake, ?_, ?_, ?_, ?_⟩
  · intro c tx nowMs
    rw [htake]
    rfl
  · intro c tx nowMs
    rw [htake, List.length_take, List.length_cons]
    exact Nat.min_comm _ _
  · intro c nowMs
    unfold getCachedPendingTransactions
    by_cases h : WS_CACHE_TTL < nowMs - c.lastUpdate
    · simp [h]
    · simp only [h, if_false]
      rw [List.length_take]
      exact Nat.min_le_left _ _
  · intro buf nowMs tokenIn tokenOut
    unfold fetchFromWebSocketCache getCachedPendingTransactions
    by_cases h2 : WS_CACHE_TTL < nowMs - buf.lastUpdate
    · simp [h2]
    · by_cases h3 : buf.isConnected = true <;> simp [h2, h3, List.length_take]

/-! ## C1: error propagation out of the aggregator -/

/-- Environment for the C1 failing input: no cache entry, WebSocket
disconnected, no Blocknative credential, and `getProvider()` rejecting with
its "no working provider" error because no API key is configured and every
public RPC endpoint is unreachable. -/
def envAllSourcesFail : AggregatorEnv :=
  { nowMs := 1700000000000
    buffer := ⟨[], 0, false, "none"⟩
    blocknativeKey := false
    blocknative := none
    provider := .error "No working Ethereum RPC provider available"
    rpc := none
    recentBlocks := none }

/-- The same situation with a reachable provider whose block and pending-block
queries all fail inside their try blocks. -/
def envProviderOnly : AggregatorEnv := { envAllSourcesFail with provider := .ok () }

/-- C1.  Because `getProvider()` is awaited *before* the try/catch in both
`fetchFromEthereumRPC` and `analyzeRecentBlocks`, a provider acquisition
failure escapes `getRealMempoolData` as an exception instead of falling
through to the deterministic baseline; the baseline (confidence 0.50,
source "simulated", empty competing list) is produced only when the provider
itself is reachable and everything after it fails. -/
theorem C1_provider_failure_escapes :
    (getRealMempoolData envAllSourcesFail [] "ETH" "USDC" none).1 =
      .error "No working Ethereum RPC provider available"
    ∧ (getRealMempoolData envProviderOnly [] "ETH" "USDC" none).1 =
      .ok (getSimulatedMempoolData "ETH" "USDC" 1700000000)
    ∧ (getSimulatedMempoolData "ETH" "USDC" 1700000000).confidence = 0.5
    ∧ (getSimulatedMempoolData "ETH" "USDC" 1700000000).dataSource = "simulated"
    ∧ (getSimulatedMempoolData "ETH" "USDC" 1700000000).competingTxs = [] :=
  ⟨rfl, rfl, rfl, rfl, rfl⟩

/-! ## C4: the gas percentile estimator -/

theorem pctIndex_lt {n : ℕ} (hn : 0 < n) {pct : ℕ} (hp : pct < 100) : pctIndex n pct < n := by
  unfold pctIndex
  exact (Nat.div_lt_iff_lt_mul (by norm_num)).mpr (mul_lt_mul_of_pos_left hp hn)

theorem pctIndex_mono (n : ℕ) {p q : ℕ} (h : p ≤ q) : pctIndex n p ≤ pctIndex n q :=
  Nat.div_le_div_right (Nat.mul_le_mul_left n h)

theorem sorted_getD_mono {s : List ℚ} (hs : s.Sorted (· ≤ ·)) {i j : ℕ} (hij : i ≤ j)
    (hj : j < s.length) : s.getD i 0 ≤ s.getD j 0 := by
  have hi : i < s.length := lt_of_le_of_lt hij hj
  rw [List.getD_eq_getElem s 0 hi, List.getD_eq_getElem s 0 hj]
  have h := hs.rel_get_of_le (a := ⟨i, hi⟩) (b := ⟨j, hj⟩) (Fin.mk_le_mk.mpr hij)
  simpa using h

theorem getD_mem_of_lt {s : List ℚ} {i : ℕ} (hi : i < s.length) : s.getD i 0 ∈ s := by
  rw [List.getD_eq_getElem s 0 hi]
  exact List.getElem_mem hi

/-- C4.  For a non-empty sample the computed percentiles are (the 2-decimal
renderings of) the elements of the ascending-sorted sample at the nearest-rank
indices `floor(n·25/100)`, `floor(n·50/100)`, `floor(n·75/100)`,
`floor(n·90/100)` — scaled by the fixed multipliers 1.1/1.25/1.5/2 in the
recent-block heuristic — and the quadruple satisfies p25 ≤ p50 ≤ p75 ≤ p90;
an empty sample yields the fixed default quadruple (20, 35, 50, 80) in both
estimators. -/
theorem C4_percentile_estimator (l : List ℚ) :
    (l ≠ [] → (∀ x ∈ l, 0 < x) →
      wsGasPercentiles l.mergeSort =
        ⟨round2 (l.mergeSort.getD (pctIndex l.length 25) 0),
         round2 (l.mergeSort.getD (pctIndex l.length 50) 0),
         round2 (l.mergeSort.getD (pctIndex l.length 75) 0),
         round2 (l.mergeSort.getD (pctIndex l.length 90) 0)⟩
      ∧ (wsGasPercentiles l.mergeSort).p25 ≤ (wsGasPercentiles l.mergeSort).p50
      ∧ (wsGasPercentiles l.mergeSort).p50 ≤ (wsGasPercentiles l.mergeSort).p75
      ∧ (wsGasPercentiles l.mergeSort).p75 ≤ (wsGasPercentiles l.mergeSort).p90)
    ∧ (l ≠ [] → (∀ x ∈ l, 0 ≤ x) →
      getGasPricePercentiles (some l) =
        ⟨round2 (l.mergeSort.getD (pctIndex l.length 25) 0 * 1.1),
         round2 (l.mergeSort.getD (pctIndex l.length 50) 0 * 1.25),
         round2 (l.mergeSort.getD (pctIndex l.length 75) 0 * 1.5),
         round2 (l.mergeSort.getD (pctIndex l.length 90) 0 * 2)⟩
      ∧ (getGasPricePercentiles (some l)).p25 ≤ (getGasPricePercentiles (some l)).p50
      ∧ (getGasPricePercentiles (some l)).p50 ≤ (getGasPricePercentiles (some l)).p75
      ∧ (getGasPricePercentiles (some l)).p75 ≤ (getGasPricePercentiles (some l)).p90)
    ∧ wsGasPercentiles ([] : List ℚ) = defaultGasPercentiles
    ∧ getGasPricePercentiles (some ([] : List ℚ)) = defaultGasPercentiles
    ∧ getGasPricePercentiles none = defaultGasPercentiles := by
  refine ⟨?_, ?_, rfl, rfl, rfl⟩
  · intro hne hpos
    have hn : 0 < l.length := List.length_pos.mpr hne
    have hlen : l.mergeSort.length = l.length := List.length_mergeSort l
    have hsort : l.mergeSort.Sorted (· ≤ ·) := List.sorted_mergeSort' l
    have hposs : ∀ x ∈ l.mergeSort, 0 < x := fun x hx =>
      hpos x (List.mem_mergeSort.mp hx)
    have hi25 : pctIndex l.length 25 < l.mergeSort.length := by
      rw [hlen]; exact pctIndex_lt hn (by norm_num)
    have hi50 : pctIndex l.length 50 < l.mergeSort.length := by
      rw [hlen]; exact pctIndex_lt hn (by norm_num)
    have hi75 : pctIndex l.length 75 < l.mergeSort.length := by
      rw [hlen]; exact pctIndex_lt hn (by norm_num)
    have hi90 : pctIndex l.length 90 < l.mergeSort.length := by
      rw [hlen]; exact pctIndex_lt hn (by norm_num)
    have hval : ∀ i : ℕ, i < l.mergeSort.length → ∀ d : ℚ,
        jsOrQ (l.mergeSort.get? i) d = l.mergeSort.getD i 0 := by
      intro i hi d
      have hne0 : l.mergeSort.getD i 0 ≠ 0 :=
        ne_of_gt (hposs _ (getD_mem_of_lt hi))
      rw [List.getD_eq_getElem _ 0 hi] at hne0 ⊢
      rw [List.get?_eq_getElem?, List.getElem?_eq_getElem hi]
      simp [jsOrQ, hne0]
    have heq : wsGasPercentiles l.mergeSort =
        ⟨round2 (l.mergeSort.getD (pctIndex l.length 25) 0),
         round2 (l.mergeSort.getD (pctIndex l.length 50) 0),
         round2 (l.mergeSort.getD (pctIndex l.length 75) 0),
         round2 (l.mergeSort.getD (pctIndex l.length 90) 0)⟩ := by
      unfold wsGasPercentiles
      split
      · rw [hlen]
        rw [hval _ hi25 20, hval _ hi50 35, hval _ hi75 50, hval _ hi90 80]
      · next hfalse => exact absurd (show 0 < l.mergeSort.length by rw [hlen]; exact hn) hfalse
    refine ⟨heq, ?_, ?_, ?_⟩ <;> rw [heq]
    · exact round2_mono (sorted_getD_mono hsort (pctIndex_mono _ (by norm_num)) hi50)
    · exact round2_mono (sorted_getD_mono hsort (pctIndex_mono _ (by norm_num)) hi75)
    · exact round2_mono (sorted_getD_mono hsort (pctIndex_mono _ (by norm_num)) hi90)
  · intro hne hpos
    have hn : 0 < l.length := List.length_pos.mpr hne
    have hlen : l.mergeSort.length = l.length := List.length_mergeSort l
    have hsort : l.mergeSort.Sorted (· ≤ ·) := List.sorted_mergeSort' l
    have hposs : ∀ x ∈ l.mergeSort, 0 ≤ x := fun x hx =>
      hpos x (List.mem_mergeSort.mp hx)
    have hi25 : pctIndex l.length 25 < l.mergeSort.length := by
      rw [hlen]; exact pctIndex_lt hn (by norm_num)
    have hi50 : pctIndex l.length 50 < l.mergeSort.length := by
      rw [hlen]; exact pctIndex_lt hn (by norm_num)
    have hi75 : pctIndex l.length 75 < l.mergeSort.length := by
      rw [hlen]; exact pctIndex_lt hn (by norm_num)
    have hi90 : pctIndex l.length 90 < l.mergeSort.length := by
      rw [hlen]; exact pctIndex_lt hn (by norm_num)
    have hnn : ∀ i : ℕ, i < l.mergeSort.length → 0 ≤ l.mergeSort.getD i 0 := by
      intro i hi
      exact hposs _ (getD_mem_of_lt hi)
    have heq : getGasPricePercentiles (some l) =
        ⟨round2 (l.mergeSort.getD (pctIndex l.length 25) 0 * 1.1),
         round2 (l.mergeSort.getD (pctIndex l.length 50) 0 * 1.25),
         round2 (l.mergeSort.getD (pctIndex l.length 75) 0 * 1.5),
         round2 (l.mergeSort.getD (pctIndex l.length 90) 0 * 2)⟩ := by
      simp only [getGasPricePercentiles]
      rw [if_neg (by simpa using hne)]
      rw [hlen]
    have h2550 : l.mergeSort.getD (pctIndex l.length 25) 0 ≤
        l.mergeSort.getD (pctIndex l.length 50) 0 :=
      sorted_getD_mono hsort (pctIndex_mono _ (by norm_num)) hi50
    have h5075 : l.mergeSort.getD (pctIndex l.length 50) 0 ≤
        l.mergeSort.getD (pctIndex l.length 75) 0 :=
      sorted_getD_mono hsort (pctIndex_mono _ (by norm_num)) hi75
    have h7590 : l.mergeSort.getD (pctIndex l.length 75) 0 ≤
        l.mergeSort.getD (pctIndex l.length 90) 0 :=
      sorted_getD_mono hsort (pctIndex_mono _ (by norm_num)) hi90
    have hn25 := hnn _ hi25
    have hn50 := hnn _ hi50
    have hn75 := hnn _ hi75
    refine ⟨heq, ?_, ?_, ?_⟩ <;> rw [heq]
    · exact round2_mono (by nlinarith)
    · exact round2_mono (by nlinarith)
    · exact round2_mono (by nlinarith)

/-- Witness for C4 at the concrete sample [40, 10, 20, 30]. -/
theorem C4_percentile_estimator_witness :
    ([40, 10, 20, 30] : List ℚ) ≠ []
    ∧ (∀ x ∈ ([40, 10, 20, 30] : List ℚ), 0 < x)
    ∧ (wsGasPercentiles ([40, 10, 20, 30] : List ℚ).mergeSort).p25 ≤
        (wsGasPercentiles ([40, 10, 20, 30] : List ℚ).mergeSort).p50 := by
  refine ⟨by simp, by decide, ?_⟩
  exact ((C4_percentile_estimator [40, 10, 20, 30]).1 (by simp) (by decide)).2.1

/-! ## C5: the sandwich detector -/

theorem filter_ne_nil {α : Type} {p : α → Bool} {l : List α} :
    l.filter p ≠ [] ↔ ∃ x ∈ l, p x = true := by
  rw [Ne, List.filter_eq_nil_iff]
  push_neg
  simp

/-- Modelled from the claim's words (spec §4.4), for comparison with
`detectSandwichPattern`: front-runners have gas price ≥ caller's × 1.05 and
match the caller's trading direction; back-runners have gas price ≤ caller's
× 0.95 and the reverse direction; detected exactly when both sets are
non-empty. -/
def specSandwichDetected (m : Snapshot) (u : UserTx) : Bool :=
  let uGas := userGasPrice u m
  let specFront := m.competingTxs.filter fun tx =>
    decide (uGas * 1.05 ≤ tx.gasPrice) && decide (tx.tokenPair = userPair u)
  let specBack := m.competingTxs.filter fun tx =>
    decide (tx.gasPrice ≤ uGas * 0.95)
      && isOppositeDirection tx.tokenPair u.tokenIn u.tokenOut
  !specFront.isEmpty && !specBack.isEmpty

/-- A snapshot whose would-be front-runner sits exactly at the 1.05 × gas
boundary (gas 105 against the caller's 100) next to a well-formed back-runner
(gas 90, reverse direction). -/
def sandwichBoundarySnapshot : Snapshot :=
  { tokenPair := "A/B"
    currentBlock := 0
    blockTimeEstimate := 12
    gasPercentiles := ⟨20, 35, 50, 80⟩
    competingTxs :=
      [⟨"0xf1", 105, 3, none, "A/B", none⟩, ⟨"0xb1", 90, 3, none, "B/A", none⟩]
    pendingTxCount := none
    dataSource := "real-mempool-infura"
    confidence := 0.98
    timestamp := 0 }

/-- The caller's trade for the C5 inputs: pair A/B, gas price 100. -/
def sandwichTrade : UserTx := ⟨"A", "B", 1000, some 100⟩

/-- C5, counterexample.  At the boundary input the claim (gas ≥ caller × 1.05
counts as a front-runner) predicts a detected sandwich, but the source uses a
strict comparison and reports no detection. -/
theorem C5_sandwich_boundary_counterexample :
    specSandwichDetected sandwichBoundarySnapshot sandwichTrade = true
    ∧ (detectSandwichPattern sandwichBoundarySnapshot sandwichTrade).detected = false := by
  constructor
  · simp only [specSandwichDetected, sandwichBoundarySnapshot, sandwichTrade, userGasPrice,
      userPair, List.filter,
      show isOppositeDirection "B/A" "A" "B" = true from by decide,
      show ("A" ++ "/" ++ "B" : String) = "A/B" from by decide,
      show (Option.getD (some (100 : ℚ)) 35) = 100 from rfl]
    norm_num
  · simp only [detectSandwichPattern, sandwichBoundarySnapshot, sandwichTrade, userGasPrice,
      userPair, List.filter,
      show isSameOrRelatedPair "A/B" ("A" ++ "/" ++ "B") = true from by decide,
      show isSameOrRelatedPair "B/A" ("A" ++ "/" ++ "B") = true from by decide,
      show isOppositeDirection "B/A" "A" "B" = true from by decide,
      show isOppositeDirection "A/B" "A" "B" = false from by decide,
      show (Option.getD (some (100 : ℚ)) 35) = 100 from rfl]
    norm_num

/-- C5, amended.  The sandwich detector partitions competitors into
front-runners (gas price strictly greater than caller's × 1.05, same or
related pair — the trading direction is not checked) and back-runners (gas
price strictly below caller's × 0.95, same or related pair, reverse
direction); detected exactly when both sets are non-empty, and the confidence
is then min(0.6 + 0.1 per front-runner + 0.1 per back-runner (counting every
runner, not only the extras) + 0.2 when the average front gas exceeds the
caller's price and the average back gas is below it, 1.0); otherwise the
confidence is 0. -/
theorem C5_sandwich_detector_amended (m : Snapshot) (u : UserTx) :
    ((detectSandwichPattern m u).detected = true ↔
      ((∃ tx ∈ m.competingTxs, userGasPrice u m * 1.05 < tx.gasPrice ∧
          isSameOrRelatedPair tx.tokenPair (userPair u) = true) ∧
       (∃ tx ∈ m.competingTxs, tx.gasPrice < userGasPrice u m * 0.95 ∧
          isSameOrRelatedPair tx.tokenPair (userPair u) = true ∧
          isOppositeDirection tx.tokenPair u.tokenIn u.tokenOut = true)))
    ∧ ((detectSandwichPattern m u).detected = true →
        (detectSandwichPattern m u).confidence =
          min (0.6 +
            (m.competingTxs.countP (fun tx =>
              decide (userGasPrice u m * 1.05 < tx.gasPrice) &&
              isSameOrRelatedPair tx.tokenPair (userPair u)) : ℚ) * 0.1 +
            (m.competingTxs.countP (fun tx =>
              decide (tx.gasPrice < userGasPrice u m * 0.95) &&
              isSameOrRelatedPair tx.tokenPair (userPair u) &&
              isOppositeDirection tx.tokenPair u.tokenIn u.tokenOut) : ℚ) * 0.1 +
            (if checkGasOrdering
                (m.competingTxs.filter fun tx =>
                  decide (userGasPrice u m * 1.05 < tx.gasPrice) &&
                  isSameOrRelatedPair tx.tokenPair (userPair u))
                (m.competingTxs.filter fun tx =>
                  decide (tx.gasPrice < userGasPrice u m * 0.95) &&
                  isSameOrRelatedPair tx.tokenPair (userPair u) &&
                  isOppositeDirection tx.tokenPair u.tokenIn u.tokenOut)
                (userGasPrice u m) then 0.2 else 0)) 1)
    ∧ ((detectSandwichPattern m u).detected = false →
        (detectSandwichPattern m u).confidence = 0) := by
  unfold detectSandwichPattern
  by_cases hemp : m.competingTxs.isEmpty
  · have hnil : m.competingTxs = [] := List.isEmpty_eq_true.mp hemp
    simp [hemp, hnil]
  · rw [if_neg hemp]
    dsimp only
    refine ⟨?_, ?_, ?_⟩
    · simp only [Bool.and_eq_true, Bool.not_eq_true', List.isEmpty_eq_false]
      rw [filter_ne_nil, filter_ne_nil]
      simp [Bool.and_eq_true, decide_eq_true_eq, and_assoc]
    · intro hdet
      rw [hdet] at *
      rw [if_pos rfl]
      rw [List.countP_eq_length_filter, List.countP_eq_length_filter]
    · intro hdet
      rw [hdet]
      simp only [Bool.false_eq_true, if_false]

/-- A variant of the boundary snapshot whose front-runner clearly passes the
strict threshold (gas 120 against the caller's 100). -/
def sandwichDetectedSnapshot : Snapshot :=
  { tokenPair := "A/B"
    currentBlock := 0
    blockTimeEstimate := 12
    gasPercentiles := ⟨20, 35, 50, 80⟩
    competingTxs :=
      [⟨"0xf1", 120, 3, none, "A/B", none⟩, ⟨"0xb1", 90, 3, none, "B/A", none⟩]
    pendingTxCount := none
    dataSource := "real-mempool-infura"
    confidence := 0.98
    timestamp := 0 }

theorem sandwichDetectedSnapshot_detected :
    (detectSandwichPattern sandwichDetectedSnapshot sandwichTrade).detected = true := by
  simp only [detectSandwichPattern, sandwichDetectedSnapshot, sandwichTrade, userGasPrice,
    userPair, List.filter,
    show isSameOrRelatedPair "A/B" ("A" ++ "/" ++ "B") = true from by decide,
    show isSameOrRelatedPair "B/A" ("A" ++ "/" ++ "B") = true from by decide,
    show isOppositeDirection "B/A" "A" "B" = true from by decide,
    show isOppositeDirection "A/B" "A" "B" = false from by decide,
    show (Option.getD (some (100 : ℚ)) 35) = 100 from rfl]
  norm_num

/-- Witness for the amended C5 at a detected instance (front gas 120, back
gas 90 against the caller's 100): the detector fires and the confidence obeys
the amended formula. -/
theorem C5_sandwich_detector_amended_witness :
    (detectSandwichPattern sandwichDetectedSnapshot sandwichTrade).detected = true
    ∧ (detectSandwichPattern sandwichDetectedSnapshot sandwichTrade).confidence =
        min (0.6 +
          (sandwichDetectedSnapshot.competingTxs.countP (fun tx =>
            decide (userGasPrice sandwichTrade sandwichDetectedSnapshot * 1.05 < tx.gasPrice) &&
            isSameOrRelatedPair tx.tokenPair (userPair sandwichTrade)) : ℚ) * 0.1 +
          (sandwichDetectedSnapshot.competingTxs.countP (fun tx =>
            decide (tx.gasPrice < userGasPrice sandwichTrade sandwichDetectedSnapshot * 0.95) &&
            isSameOrRelatedPair tx.tokenPair (userPair sandwichTrade) &&
            isOppositeDirection tx.tokenPair sandwichTrade.tokenIn sandwichTrade.tokenOut) : ℚ)
            * 0.1 +
          (if checkGasOrdering
              (sandwichDetectedSnapshot.competingTxs.filter fun tx =>
                decide (userGasPrice sandwichTrade sandwichDetectedSnapshot * 1.05 < tx.gasPrice) &&
                isSameOrRelatedPair tx.tokenPair (userPair sandwichTrade))
              (sandwichDetectedSnapshot.competingTxs.filter fun tx =>
                decide (tx.gasPrice < userGasPrice sandwichTrade sandwichDetectedSnapshot * 0.95) &&
                isSameOrRelatedPair tx.tokenPair (userPair sandwichTrade) &&
                isOppositeDirection tx.tokenPair sandwichTrade.tokenIn sandwichTrade.tokenOut)
              (userGasPrice sandwichTrade sandwichDetectedSnapshot) then 0.2 else 0)) 1 :=
  ⟨sandwichDetectedSnapshot_detected,
   (C5_sandwich_detector_amended sandwichDetectedSnapshot sandwichTrade).2.1
     sandwichDetectedSnapshot_detected⟩

/-! ## C6: the front-run detector -/

theorem foldl_max_le_self {α : Type} (f : α → ℚ) :
    ∀ (l : List α) (a : ℚ), a ≤ l.foldl (fun acc x => max acc (f x)) a := by
  intro l
  induction l with
  | nil => intro a; exact le_refl a
  | cons x xs ih =>
    intro a
    exact le_trans (le_max_left a (f x)) (ih (max a (f x)))

theorem foldl_max_ub {α : Type} (f : α → ℚ) :
    ∀ (l : List α) (a : ℚ) (x : α), x ∈ l → f x ≤ l.foldl (fun acc y => max acc (f y)) a := by
  intro l
  induction l with
  | nil => intro a x hx; cases hx
  | cons y ys ih =>
    intro a x hx
    rcases List.mem_cons.mp hx with rfl | hx2
    · exact le_trans (le_max_right a (f x)) (foldl_max_le_self f ys (max a (f x)))
    · exact ih (max a (f y)) x hx2

theorem foldl_max_attained {α : Type} (f : α → ℚ) :
    ∀ (l : List α) (a : ℚ), l.foldl (fun acc x => max acc (f x)) a = a ∨
      ∃ x ∈ l, l.foldl (fun acc y => max acc (f y)) a = f x := by
  intro l
  induction l with
  | nil => intro a; exact Or.inl rfl
  | cons y ys ih =>
    intro a
    rcases ih (max a (f y)) with h | ⟨x, hx, hfx⟩
    · simp only [List.foldl_cons] at *
      rcases max_choice a (f y) with hm | hm
      · exact Or.inl (h.trans hm)
      · exact Or.inr ⟨y, List.mem_cons_self y ys, h.trans hm⟩
    · exact Or.inr ⟨x, List.mem_cons_of_mem y hx, hfx⟩

/-- The competitor predicate of `detectFrontrunPattern`. -/
def frontrunPred (m : Snapshot) (u : UserTx) (tx : Tx) : Bool :=
  decide (userGasPrice u m < tx.gasPrice) && isSameOrRelatedPair tx.tokenPair (userPair u)

/-- Exhaustive description of the front-run detector result: either the
competitor filter is empty and nothing is detected, or the detector reports
the filter's head/tail with the source's confidence formula. -/
theorem frontrun_result_cases (m : Snapshot) (u : UserTx) :
    (m.competingTxs.filter (frontrunPred m u) = [] ∧
      detectFrontrunPattern m u = ⟨false, 0, 0⟩)
    ∨ (∃ c cs, m.competingTxs.filter (frontrunPred m u) = c :: cs ∧
        detectFrontrunPattern m u =
          ⟨true,
           min (0.5 + ((c :: cs).length : ℚ) * 0.1 +
             (cs.foldl (fun acc tx => max acc ((tx.gasPrice - userGasPrice u m) / userGasPrice u m))
               ((c.gasPrice - userGasPrice u m) / userGasPrice u m)) * 0.3) 1,
           (c :: cs).length⟩) := by
  unfold detectFrontrunPattern frontrunPred
  by_cases hemp : m.competingTxs.isEmpty
  · have hnil : m.competingTxs = [] := List.isEmpty_eq_true.mp hemp
    rw [if_pos hemp]
    exact Or.inl ⟨by rw [hnil]; rfl, rfl⟩
  · rw [if_neg hemp]
    dsimp only
    rcases hF : m.competingTxs.filter fun tx =>
        decide (userGasPrice u m < tx.gasPrice) && isSameOrRelatedPair tx.tokenPair (userPair u)
      with _ | ⟨c, cs⟩
    · exact Or.inl ⟨hF, by rw [hF]⟩
    · exact Or.inr ⟨c, cs, hF, by rw [hF]⟩

/-- If the front-run detector does not fire, no competing transaction on a
related pair outbids the caller. -/
theorem frontrun_undetected_no_competitor (m : Snapshot) (u : UserTx)
    (h : ¬(detectFrontrunPattern m u).detected = true) :
    ∀ tx ∈ m.competingTxs, isSameOrRelatedPair tx.tokenPair (userPair u) = true →
      tx.gasPrice ≤ userGasPrice u m := by
  rcases frontrun_result_cases m u with ⟨hF, _⟩ | ⟨c, cs, hF, heq⟩
  · intro tx htx hrel
    by_contra hgt
    push_neg at hgt
    have := List.filter_eq_nil_iff.mp hF tx htx
    exact this (by simp [frontrunPred, hrel, hgt])
  · exact absurd (by rw [heq]) h

/-- If the front-run detector fires and the assumed caller gas price is
positive, its confidence exceeds the 0.6 threshold used by the attack-type
precedence. -/
theorem frontrun_detected_conf_gt (m : Snapshot) (u : UserTx)
    (hpos : 0 < userGasPrice u m)
    (hdet : (detectFrontrunPattern m u).detected = true) :
    0.6 < (detectFrontrunPattern m u).confidence := by
  rcases frontrun_result_cases m u with ⟨_, heq⟩ | ⟨c, cs, hF, heq⟩
  · rw [heq] at hdet
    exact absurd hdet (by simp)
  · rw [heq]
    have hcmem : c ∈ m.competingTxs.filter (frontrunPred m u) := by
      rw [hF]; exact List.mem_cons_self c cs
    have hcgas : userGasPrice u m < c.gasPrice := by
      have := (List.mem_filter.mp hcmem).2
      simp only [frontrunPred, Bool.and_eq_true, decide_eq_true_eq] at this
      exact this.1
    have hd0 : 0 < (c.gasPrice - userGasPrice u m) / userGasPrice u m :=
      div_pos (by linarith) hpos
    have hmax : (c.gasPrice - userGasPrice u m) / userGasPrice u m ≤
        cs.foldl (fun acc tx => max acc ((tx.gasPrice - userGasPrice u m) / userGasPrice u m))
          ((c.gasPrice - userGasPrice u m) / userGasPrice u m) :=
      foldl_max_le_self _ cs _
    have hlen : (1 : ℚ) ≤ ((c :: cs).length : ℚ) := by
      have : 1 ≤ (c :: cs).length := Nat.succ_le_succ (Nat.zero_le _)
      exact_mod_cast this
    exact lt_min (by nlinarith) (by norm_num)

/-- C6.  The front-run detector fires exactly when some competing transaction
on the same or related pair has gas price above the caller's assumed gas
price (the caller's own price, or the snapshot's p50 when the price is
omitted — `userGasPrice`); when it fires, the reported competitor count is
the number of such competitors and the confidence is min(0.5 + 0.1 ×
competitor count + 0.3 × the largest relative gas-price gap among those
competitors, 1.0); otherwise the confidence is 0. -/
theorem C6_frontrun_detector (m : Snapshot) (u : UserTx) :
    ((detectFrontrunPattern m u).detected = true ↔
      ∃ tx ∈ m.competingTxs, userGasPrice u m < tx.gasPrice ∧
        isSameOrRelatedPair tx.tokenPair (userPair u) = true)
    ∧ ((detectFrontrunPattern m u).detected = true →
        (detectFrontrunPattern m u).competitorCount =
          m.competingTxs.countP (frontrunPred m u)
        ∧ ∃ g,
          (∀ tx ∈ m.competingTxs, userGasPrice u m < tx.gasPrice →
            isSameOrRelatedPair tx.tokenPair (userPair u) = true →
            (tx.gasPrice - userGasPrice u m) / userGasPrice u m ≤ g)
          ∧ (∃ tx ∈ m.competingTxs, (userGasPrice u m < tx.gasPrice ∧
              isSameOrRelatedPair tx.tokenPair (userPair u) = true) ∧
              g = (tx.gasPrice - userGasPrice u m) / userGasPrice u m)
          ∧ (detectFrontrunPattern m u).confidence =
              min (0.5 + ((detectFrontrunPattern m u).competitorCount : ℚ) * 0.1 + g * 0.3) 1)
    ∧ ((detectFrontrunPattern m u).detected = false →
        (detectFrontrunPattern m u).confidence = 0) := by
  rcases frontrun_result_cases m u with ⟨hF, heq⟩ | ⟨c, cs, hF, heq⟩
  · refine ⟨?_, ?_, ?_⟩
    · rw [heq]
      simp only [Bool.false_eq_true, false_iff]
      rintro ⟨tx, htx, hgas, hrel⟩
      exact (List.filter_eq_nil_iff.mp hF tx htx) (by simp [frontrunPred, hgas, hrel])
    · intro hdet
      rw [heq] at hdet
      exact absurd hdet (by simp)
    · intro _
      rw [heq]
  · have hdet : (detectFrontrunPattern m u).detected = true := by rw [heq]
    refine ⟨?_, ?_, ?_⟩
    · rw [heq]
      simp only [true_iff]
      have hcmem := List.mem_filter.mp (show c ∈ m.competingTxs.filter (frontrunPred m u) by
        rw [hF]; exact List.mem_cons_self c cs)
      have hp := hcmem.2
      simp only [frontrunPred, Bool.and_eq_true, decide_eq_true_eq] at hp
      exact ⟨c, hcmem.1, hp.1, hp.2⟩
    · intro _
      have hcount : (detectFrontrunPattern m u).competitorCount =
          m.competingTxs.countP (frontrunPred m u) := by
        rw [heq, List.countP_eq_length_filter, hF]
      refine ⟨hcount, ?_⟩
      refine ⟨cs.foldl (fun acc tx => max acc ((tx.gasPrice - userGasPrice u m) / userGasPrice u m))
        ((c.gasPrice - userGasPrice u m) / userGasPrice u m), ?_, ?_, ?_⟩
      · intro tx htx hgas hrel
        have hmem : tx ∈ c :: cs := by
          rw [← hF]
          exact List.mem_filter.mpr ⟨htx, by simp [frontrunPred, hgas, hrel]⟩
        rcases List.mem_cons.mp hmem with rfl | hmem2
        · exact foldl_max_le_self _ cs _
        · exact foldl_max_ub _ cs _ tx hmem2
      · rcases foldl_max_attained
            (fun tx => (tx.gasPrice - userGasPrice u m) / userGasPrice u m) cs
            ((c.gasPrice - userGasPrice u m) / userGasPrice u m) with hend | ⟨x, hx, hfx⟩
        · have hcmem := List.mem_filter.mp (show c ∈ m.competingTxs.filter (frontrunPred m u) by
            rw [hF]; exact List.mem_cons_self c cs)
          have hp := hcmem.2
          simp only [frontrunPred, Bool.and_eq_true, decide_eq_true_eq] at hp
          exact ⟨c, hcmem.1, ⟨hp.1, hp.2⟩, hend⟩
        · have hxmem := List.mem_filter.mp (show x ∈ m.competingTxs.filter (frontrunPred m u) by
            rw [hF]; exact List.mem_cons_of_mem c hx)
          have hp := hxmem.2
          simp only [frontrunPred, Bool.and_eq_true, decide_eq_true_eq] at hp
          exact ⟨x, hxmem.1, ⟨hp.1, hp.2⟩, hfx⟩
      · rw [heq]
    · intro hnd
      rw [heq] at hnd
      exact absurd hnd (by simp)

/-- Witness for C6: one competitor at gas 120 on the caller's pair against an
assumed price of 100 makes the detector fire. -/
theorem C6_frontrun_detector_witness :
    (detectFrontrunPattern sandwichDetectedSnapshot sandwichTrade).detected = true :=
  (C6_frontrun_detector sandwichDetectedSnapshot sandwichTrade).1.mpr
    ⟨⟨"0xf1", 120, 3, none, "A/B", none⟩, by simp [sandwichDetectedSnapshot],
      by norm_num [sandwichTrade, userGasPrice],
      by decide⟩

/-! ## C3: bounds of the aggregate and combined risk scores -/

theorem detectSandwichPattern_conf_bounds (m : Snapshot) (u : UserTx) :
    0 ≤ (detectSandwichPattern m u).confidence ∧ (detectSandwichPattern m u).confidence ≤ 1 := by
  unfold detectSandwichPattern
  by_cases hemp : m.competingTxs.isEmpty
  · rw [if_pos hemp]; norm_num
  · rw [if_neg hemp]
    dsimp only
    split_ifs with h1 h2
    · exact ⟨le_min (by positivity) (by norm_num), min_le_right _ _⟩
    · exact ⟨le_min (by positivity) (by norm_num), min_le_right _ _⟩
    · norm_num

theorem detectFrontrunPattern_conf_bounds (m : Snapshot) (u : UserTx)
    (hu : 0 ≤ userGasPrice u m) :
    0 ≤ (detectFrontrunPattern m u).confidence ∧ (detectFrontrunPattern m u).confidence ≤ 1 := by
  rcases frontrun_result_cases m u with ⟨_, heq⟩ | ⟨c, cs, hF, heq⟩
  · rw [heq]; norm_num
  · rw [heq]
    have hcmem := List.mem_filter.mp (show c ∈ m.competingTxs.filter (frontrunPred m u) by
      rw [hF]; exact List.mem_cons_self c cs)
    have hcgas : userGasPrice u m < c.gasPrice := by
      have hp := hcmem.2
      simp only [frontrunPred, Bool.and_eq_true, decide_eq_true_eq] at hp
      exact hp.1
    have hinit : 0 ≤ (c.gasPrice - userGasPrice u m) / userGasPrice u m := by
      rcases eq_or_lt_of_le hu with h0 | h0
      · rw [← h0, div_zero]
      · exact le_of_lt (div_pos (by linarith) h0)
    have hfold : 0 ≤ cs.foldl
        (fun acc tx => max acc ((tx.gasPrice - userGasPrice u m) / userGasPrice u m))
        ((c.gasPrice - userGasPrice u m) / userGasPrice u m) :=
      le_trans hinit (foldl_max_le_self _ cs _)
    have hlen : (0 : ℚ) ≤ ((c :: cs).length : ℚ) := Nat.cast_nonneg _
    exact ⟨le_min (by nlinarith) (by norm_num), min_le_right _ _⟩

theorem detectBackrunPattern_conf_bounds (m : Snapshot) (u : UserTx) :
    0 ≤ (detectBackrunPattern m u).confidence ∧ (detectBackrunPattern m u).confidence ≤ 1 := by
  unfold detectBackrunPattern
  by_cases hemp : m.competingTxs.isEmpty
  · rw [if_pos hemp]; norm_num
  · rw [if_neg hemp]
    dsimp only
    split_ifs with h1 h2
    · norm_num
    · exact ⟨le_min (by positivity) (by norm_num), min_le_right _ _⟩
    · exact ⟨le_min (by positivity) (by norm_num), min_le_right _ _⟩

theorem detectCopycatPattern_conf_bounds (m : Snapshot) (u : UserTx) :
    0 ≤ (detectCopycatPattern m u).confidence ∧ (detectCopycatPattern m u).confidence ≤ 1 := by
  unfold detectCopycatPattern
  by_cases hemp : m.competingTxs.isEmpty
  · rw [if_pos hemp]; norm_num
  · rw [if_neg hemp]
    dsimp only
    split_ifs with h1
    · norm_num
    · exact ⟨le_min (by positivity) (by norm_num), min_le_right _ _⟩

theorem detectJITLiquidityPattern_conf_bounds (m : Snapshot) (u : UserTx) :
    0 ≤ (detectJITLiquidityPattern m u).confidence
    ∧ (detectJITLiquidityPattern m u).confidence ≤ 1 := by
  unfold detectJITLiquidityPattern
  by_cases hemp : m.competingTxs.isEmpty
  · rw [if_pos hemp]; norm_num
  · rw [if_neg hemp]
    dsimp only
    split_ifs with h1 <;> norm_num

theorem riskContribution_nonneg {d : Bool} {c : ℚ} (w : ℚ) (hc : 0 ≤ c) (hw : 0 ≤ w) :
    0 ≤ riskContribution d c w := by
  unfold riskContribution
  split_ifs
  · positivity
  · exact le_refl 0

theorem detectSandwich_score_nonneg (u : UserTx) (m : Snapshot) :
    0 ≤ (detectSandwich u m).score := by
  unfold detectSandwich
  by_cases hemp : (m.competingTxs.filter fun tx =>
      decide (tx.tokenPair = userPair u) || decide (tx.tokenPair = reversePair u)).isEmpty
  · rw [if_pos hemp]; norm_num
  · rw [if_neg hemp]
    dsimp only
    have hm : (0:ℚ) ≤ min (((m.competingTxs.filter fun tx =>
        decide (tx.tokenPair = userPair u) ||
          decide (tx.tokenPair = reversePair u)).filter fun tx =>
        decide (userGasPrice u m * 1.05 < tx.gasPrice) &&
          decide (tx.tokenPair = userPair u)).length * 5 : ℚ) 15 :=
      le_min (by positivity) (by norm_num)
    split_ifs <;>
      first
        | (refine le_min ?_ (by norm_num); nlinarith [hm])
        | positivity

theorem detectFrontRun_score_nonneg (u : UserTx) (m : Snapshot) :
    0 ≤ (detectFrontRun u m).score := by
  unfold detectFrontRun
  by_cases hemp : (m.competingTxs.filter fun tx => decide (tx.tokenPair = userPair u)).isEmpty
  · rw [if_pos hemp]; norm_num
  · rw [if_neg hemp]
    dsimp only
    split_ifs <;> (refine le_min ?_ (by norm_num)) <;> positivity

theorem congestionScoreOf_bounds (m : Snapshot) :
    0 ≤ congestionScoreOf m ∧ congestionScoreOf m ≤ 90 := by
  unfold congestionScoreOf
  rcases m.pendingTxCount with _ | n
  · norm_num
  · dsimp only
    split_ifs <;> norm_num

/-- C3.  The pure pattern-analysis aggregate is an integer in [0, 100], and
the enhanced server's combined score — 60% pattern aggregate plus 40% legacy
blend plus price-impact and congestion contributions, rounded and capped — is
an integer in [0, 100], for every snapshot whose assumed caller gas price is
non-negative and every non-negative historical risk score. -/
theorem C3_risk_score_bounds :
    (∀ (m : Snapshot) (u : UserTx), 0 ≤ userGasPrice u m →
      0 ≤ calculateAggregateRisk (analyzeMEVPatterns m u)
      ∧ calculateAggregateRisk (analyzeMEVPatterns m u) ≤ 100)
    ∧ (∀ (m : Snapshot) (u : UserTx) (historicalRiskScore priceImpactPct : ℚ),
        0 ≤ userGasPrice u m → 0 ≤ historicalRiskScore →
        0 ≤ scanRiskScore m u historicalRiskScore priceImpactPct
        ∧ scanRiskScore m u historicalRiskScore priceImpactPct ≤ 100) := by
  have ha : ∀ (m : Snapshot) (u : UserTx), 0 ≤ userGasPrice u m →
      0 ≤ calculateAggregateRisk (analyzeMEVPatterns m u)
      ∧ calculateAggregateRisk (analyzeMEVPatterns m u) ≤ 100 := by
    intro m u hu
    unfold calculateAggregateRisk analyzeMEVPatterns
    dsimp only
    have h1 := (detectSandwichPattern_conf_bounds m u).1
    have h2 := (detectFrontrunPattern_conf_bounds m u hu).1
    have h3 := (detectBackrunPattern_conf_bounds m u).1
    have h4 := (detectCopycatPattern_conf_bounds m u).1
    have h5 := (detectJITLiquidityPattern_conf_bounds m u).1
    have htot : (0:ℚ) ≤
        riskContribution (detectSandwichPattern m u).detected
          (detectSandwichPattern m u).confidence 0.4 +
        riskContribution (detectFrontrunPattern m u).detected
          (detectFrontrunPattern m u).confidence 0.3 +
        riskContribution (detectBackrunPattern m u).detected
          (detectBackrunPattern m u).confidence 0.1 +
        riskContribution (detectCopycatPattern m u).detected
          (detectCopycatPattern m u).confidence 0.15 +
        riskContribution (detectJITLiquidityPattern m u).detected
          (detectJITLiquidityPattern m u).confidence 0.05 := by
      have g1 := riskContribution_nonneg (d := (detectSandwichPattern m u).detected)
        0.4 h1 (by norm_num)
      have g2 := riskContribution_nonneg (d := (detectFrontrunPattern m u).detected)
        0.3 h2 (by norm_num)
      have g3 := riskContribution_nonneg (d := (detectBackrunPattern m u).detected)
        0.1 h3 (by norm_num)
      have g4 := riskContribution_nonneg (d := (detectCopycatPattern m u).detected)
        0.15 h4 (by norm_num)
      have g5 := riskContribution_nonneg (d := (detectJITLiquidityPattern m u).detected)
        0.05 h5 (by norm_num)
      linarith
    exact ⟨le_min (jsRound_nonneg htot) (by norm_num), min_le_right _ _⟩
  refine ⟨ha, ?_⟩
  intro m u historicalRiskScore priceImpactPct hu hh
  unfold scanRiskScore
  dsimp only
  have hp := (ha m u hu).1
  have hpq : (0:ℚ) ≤ (calculateAggregateRisk (analyzeMEVPatterns m u) : ℚ) := by
    exact_mod_cast hp
  have hs := detectSandwich_score_nonneg u m
  have hf := detectFrontRun_score_nonneg u m
  have hcong := (congestionScoreOf_bounds m).1
  have hpir : (0:ℚ) ≤ if 2 < priceImpactPct then (10:ℚ) else 0 := by
    split_ifs <;> norm_num
  refine ⟨le_min (jsRound_nonneg (by nlinarith)) (by norm_num), min_le_right _ _⟩

/-- Witness for C3 at the deterministic baseline snapshot and a plain trade. -/
theorem C3_risk_score_bounds_witness :
    0 ≤ userGasPrice ⟨"T1", "T2", 5, none⟩ (getSimulatedMempoolData "T1" "T2" 0)
    ∧ (0 ≤ scanRiskScore (getSimulatedMempoolData "T1" "T2" 0) ⟨"T1", "T2", 5, none⟩ 0 0
       ∧ scanRiskScore (getSimulatedMempoolData "T1" "T2" 0) ⟨"T1", "T2", 5, none⟩ 0 0 ≤ 100) :=
  ⟨by norm_num [userGasPrice, getSimulatedMempoolData, defaultGasPercentiles],
   C3_risk_score_bounds.2 (getSimulatedMempoolData "T1" "T2" 0) ⟨"T1", "T2", 5, none⟩ 0 0
     (by norm_num [userGasPrice, getSimulatedMempoolData, defaultGasPercentiles]) (le_refl 0)⟩

/-! ## C7: attack-type precedence -/

theorem sandwich_detected_conf_gt (m : Snapshot) (u : UserTx)
    (hdet : (detectSandwichPattern m u).detected = true) :
    0.7 < (detectSandwichPattern m u).confidence := by
  unfold detectSandwichPattern at hdet ⊢
  by_cases hemp : m.competingTxs.isEmpty
  · rw [if_pos hemp] at hdet
    exact absurd hdet (by simp)
  · rw [if_neg hemp] at hdet ⊢
    dsimp only at hdet ⊢
    rw [if_pos hdet]
    simp only [Bool.and_eq_true, Bool.not_eq_eq_eq_not, Bool.not_true,
      List.isEmpty_eq_false] at hdet
    have hF : 1 ≤ (m.competingTxs.filter fun tx =>
        decide (userGasPrice u m * 1.05 < tx.gasPrice) &&
          isSameOrRelatedPair tx.tokenPair (userPair u)).length :=
      List.length_pos.mpr hdet.1
    have hB : 1 ≤ (m.competingTxs.filter fun tx =>
        decide (tx.gasPrice < userGasPrice u m * 0.95) &&
            isSameOrRelatedPair tx.tokenPair (userPair u) &&
          isOppositeDirection tx.tokenPair u.tokenIn u.tokenOut).length :=
      List.length_pos.mpr hdet.2
    have hFq : (1:ℚ) ≤ ((m.competingTxs.filter fun tx =>
        decide (userGasPrice u m * 1.05 < tx.gasPrice) &&
          isSameOrRelatedPair tx.tokenPair (userPair u)).length : ℚ) := by exact_mod_cast hF
    have hBq : (1:ℚ) ≤ ((m.competingTxs.filter fun tx =>
        decide (tx.gasPrice < userGasPrice u m * 0.95) &&
            isSameOrRelatedPair tx.tokenPair (userPair u) &&
          isOppositeDirection tx.tokenPair u.tokenIn u.tokenOut).length : ℚ) := by
      exact_mod_cast hB
    refine lt_min ?_ (by norm_num)
    split_ifs <;> nlinarith

theorem copycat_detected_conf_gt (m : Snapshot) (u : UserTx)
    (hdet : (detectCopycatPattern m u).detected = true) :
    0.7 < (detectCopycatPattern m u).confidence := by
  unfold detectCopycatPattern at hdet ⊢
  by_cases hemp : m.competingTxs.isEmpty
  · rw [if_pos hemp] at hdet
    exact absurd hdet (by simp)
  · rw [if_neg hemp] at hdet ⊢
    dsimp only at hdet ⊢
    by_cases hcc : (m.competingTxs.filter fun tx =>
        decide (tx.tokenPair = userPair u) && jsSimilarAmount tx.value u.amountIn &&
          decide (userGasPrice u m < tx.gasPrice)).isEmpty
    · rw [if_pos hcc] at hdet
      exact absurd hdet (by simp)
    · rw [if_neg hcc] at hdet ⊢
      have h1 : 1 ≤ (m.competingTxs.filter fun tx =>
          decide (tx.tokenPair = userPair u) && jsSimilarAmount tx.value u.amountIn &&
            decide (userGasPrice u m < tx.gasPrice)).length :=
        List.length_pos.mpr (by simpa using hcc)
      have h1q : (1:ℚ) ≤ ((m.competingTxs.filter fun tx =>
          decide (tx.tokenPair = userPair u) && jsSimilarAmount tx.value u.amountIn &&
            decide (userGasPrice u m < tx.gasPrice)).length : ℚ) := by exact_mod_cast h1
      exact lt_min (by nlinarith) (by norm_num)

theorem userPair_ne_empty (u : UserTx) : userPair u ≠ "" := by
  unfold userPair
  intro h
  have hlen : (u.tokenIn ++ "/" ++ u.tokenOut).length = 0 := by rw [h]; rfl
  rw [String.length_append, String.length_append] at hlen
  have : ("/" : String).length = 1 := rfl
  omega

theorem isSameOrRelatedPair_self {p : String} (hp : p ≠ "") :
    isSameOrRelatedPair p p = true := by
  unfold isSameOrRelatedPair
  simp [hp]

/-- Shared hypothesis of the legacy fallback lemmas: no competing transaction
on a related pair outbids the caller. -/
def NoRelatedHigherGas (m : Snapshot) (u : UserTx) : Prop :=
  ∀ tx ∈ m.competingTxs, isSameOrRelatedPair tx.tokenPair (userPair u) = true →
    tx.gasPrice ≤ userGasPrice u m

theorem exact_pair_no_higher_gas {m : Snapshot} {u : UserTx}
    (hu : 0 ≤ userGasPrice u m) (hno : NoRelatedHigherGas m u) {tx : Tx}
    (htx : tx ∈ m.competingTxs) (hpair : tx.tokenPair = userPair u) {k : ℚ}
    (hk : 1 ≤ k) (hgt : userGasPrice u m * k < tx.gasPrice) : False := by
  have hrel : isSameOrRelatedPair tx.tokenPair (userPair u) = true := by
    rw [hpair]; exact isSameOrRelatedPair_self (userPair_ne_empty u)
  have hle := hno tx htx hrel
  nlinarith

theorem detectCopycat_not_detected (m : Snapshot) (u : UserTx)
    (hu : 0 ≤ userGasPrice u m) (hno : NoRelatedHigherGas m u) :
    (detectCopycat u m).detected = false := by
  unfold detectCopycat
  dsimp only
  have hfil : (m.competingTxs.filter fun tx =>
      decide (tx.tokenPair = userPair u) &&
        (match tx.amount with
          | none => false
          | some a => jsSimilarAmount a u.amountIn) &&
        decide (userGasPrice u m * 1.05 < tx.gasPrice)) = [] := by
    refine List.filter_eq_nil_iff.mpr ?_
    intro tx htx hpred
    simp only [Bool.and_eq_true, decide_eq_true_eq] at hpred
    exact exact_pair_no_higher_gas hu hno htx hpred.1.1 (by norm_num) hpred.2
  rw [hfil]
  rfl

theorem detectFrontRun_type_none (m : Snapshot) (u : UserTx)
    (hu : 0 ≤ userGasPrice u m) (hno : NoRelatedHigherGas m u) :
    (detectFrontRun u m).attackType = "none" := by
  unfold detectFrontRun
  by_cases hemp : (m.competingTxs.filter fun tx => decide (tx.tokenPair = userPair u)).isEmpty
  · rw [if_pos hemp]
  · rw [if_neg hemp]
    dsimp only
    have hhigh : ∀ k : ℚ, 1 ≤ k →
        ((m.competingTxs.filter fun tx => decide (tx.tokenPair = userPair u)).filter
          fun tx => decide (userGasPrice u m * k < tx.gasPrice)) = [] := by
      intro k hk
      refine List.filter_eq_nil_iff.mpr ?_
      intro tx htx hpred
      have hmem := List.mem_filter.mp htx
      simp only [decide_eq_true_eq] at hmem hpred
      exact exact_pair_no_higher_gas hu hno hmem.1 hmem.2 hk hpred
    rw [hhigh 1.1 (by norm_num), hhigh 1.25 (by norm_num)]
    rfl

theorem detectSandwich_type_none (m : Snapshot) (u : UserTx)
    (hu : 0 ≤ userGasPrice u m) (hno : NoRelatedHigherGas m u) :
    (detectSandwich u m).attackType = "none" := by
  unfold detectSandwich
  by_cases hemp : (m.competingTxs.filter fun tx =>
      decide (tx.tokenPair = userPair u) || decide (tx.tokenPair = reversePair u)).isEmpty
  · rw [if_pos hemp]
  · rw [if_neg hemp]
    dsimp only
    have hfr : ((m.competingTxs.filter fun tx =>
        decide (tx.tokenPair = userPair u) || decide (tx.tokenPair = reversePair u)).filter
          fun tx => decide (userGasPrice u m * 1.05 < tx.gasPrice) &&
            decide (tx.tokenPair = userPair u)) = [] := by
      refine List.filter_eq_nil_iff.mpr ?_
      intro tx htx hpred
      have hmem := List.mem_filter.mp htx
      simp only [Bool.and_eq_true, decide_eq_true_eq] at hpred
      exact exact_pair_no_higher_gas hu hno hmem.1 hpred.2 (by norm_num) hpred.1
    rw [hfr]
    rfl

/-- C7.  The primary attack classification follows the strict pattern-detector
precedence (sandwich > copycat > front-run > back-run > JIT with the 0.7/0.7/
0.6/0.6/0.6 thresholds); when no pattern detector passes its threshold the
legacy fallback provably reports "none" as well, because any competitor that
could trigger a legacy detector would already have triggered the pattern
front-run detector above its threshold. -/
theorem C7_attack_type_precedence (m : Snapshot) (u : UserTx)
    (hu : 0 < userGasPrice u m) :
    scanAttackType m u =
      (if (detectSandwichPattern m u).detected = true ∧
          0.7 < (detectSandwichPattern m u).confidence then "sandwich"
       else if (detectCopycatPattern m u).detected = true ∧
          0.7 < (detectCopycatPattern m u).confidence then "copycat-frontrun"
       else if (detectFrontrunPattern m u).detected = true ∧
          0.6 < (detectFrontrunPattern m u).confidence then "front-run"
       else if (detectBackrunPattern m u).detected = true ∧
          0.6 < (detectBackrunPattern m u).confidence then "back-run"
       else if (detectJITLiquidityPattern m u).detected = true ∧
          0.6 < (detectJITLiquidityPattern m u).confidence then "jit-liquidity"
       else "none") := by
  have hkey : ¬((detectFrontrunPattern m u).detected = true ∧
      0.6 < (detectFrontrunPattern m u).confidence) → NoRelatedHigherGas m u := by
    intro h3
    have hfrnd : (detectFrontrunPattern m u).detected = false := by
      by_cases hd : (detectFrontrunPattern m u).detected = true
      · exact absurd ⟨hd, frontrun_detected_conf_gt m u hu hd⟩ h3
      · simpa using hd
    exact frontrun_undetected_no_competitor m u (by simp [hfrnd])
  have hun : 0 ≤ userGasPrice u m := le_of_lt hu
  unfold scanAttackType determineAttackType analyzeMEVPatterns
  dsimp only
  split_ifs with h1 h2 h3 h4 h5 h6 h7
  · rfl
  · rfl
  · rfl
  · rfl
  · rfl
  · exfalso
    have := detectCopycat_not_detected m u hun (hkey h3)
    rw [this] at h6
    exact absurd h6 (by simp)
  · exact detectSandwich_type_none m u hun (hkey h3)
  · exact detectFrontRun_type_none m u hun (hkey h3)

/-- Witness for C7 at the baseline snapshot (no competitors, assumed gas
price p50 = 35 > 0): every detector is silent and the classification is the
else-branch value. -/
theorem C7_attack_type_precedence_witness :
    scanAttackType (getSimulatedMempoolData "T3" "T4" 0) ⟨"T3", "T4", 5, none⟩ =
      (if (detectSandwichPattern (getSimulatedMempoolData "T3" "T4" 0)
            ⟨"T3", "T4", 5, none⟩).detected = true ∧
          0.7 < (detectSandwichPattern (getSimulatedMempoolData "T3" "T4" 0)
            ⟨"T3", "T4", 5, none⟩).confidence then "sandwich"
       else if (detectCopycatPattern (getSimulatedMempoolData "T3" "T4" 0)
            ⟨"T3", "T4", 5, none⟩).detected = true ∧
          0.7 < (detectCopycatPattern (getSimulatedMempoolData "T3" "T4" 0)
            ⟨"T3", "T4", 5, none⟩).confidence then "copycat-frontrun"
       else if (detectFrontrunPattern (getSimulatedMempoolData "T3" "T4" 0)
            ⟨"T3", "T4", 5, none⟩).detected = true ∧
          0.6 < (detectFrontrunPattern (getSimulatedMempoolData "T3" "T4" 0)
            ⟨"T3", "T4", 5, none⟩).confidence then "front-run"
       else if (detectBackrunPattern (getSimulatedMempoolData "T3" "T4" 0)
            ⟨"T3", "T4", 5, none⟩).detected = true ∧
          0.6 < (detectBackrunPattern (getSimulatedMempoolData "T3" "T4" 0)
            ⟨"T3", "T4", 5, none⟩).confidence then "back-run"
       else if (detectJITLiquidityPattern (getSimulatedMempoolData "T3" "T4" 0)
            ⟨"T3", "T4", 5, none⟩).detected = true ∧
          0.6 < (detectJITLiquidityPattern (getSimulatedMempoolData "T3" "T4" 0)
            ⟨"T3", "T4", 5, none⟩).confidence then "jit-liquidity"
       else "none") :=
  C7_attack_type_precedence (getSimulatedMempoolData "T3" "T4" 0) ⟨"T3", "T4", 5, none⟩
    (by norm_num [userGasPrice, getSimulatedMempoolData, defaultGasPercentiles])

/-! ## C8: cache idempotence -/

theorem pickLatest_strict_max (e : CacheEntry) :
    ∀ (l : List CacheEntry) (acc : Option CacheEntry),
      (∀ x ∈ l, x.cachedAt < e.cachedAt) →
      (acc = none ∨ ∃ a, acc = some a ∧ a.cachedAt < e.cachedAt) →
      (l ++ [e]).foldl (fun acc2 x =>
        match acc2 with
        | none => some x
        | some a => if a.cachedAt < x.cachedAt then some x else some a) acc = some e := by
  intro l
  induction l with
  | nil =>
    intro acc _ hacc
    rcases hacc with rfl | ⟨a, rfl, ha⟩
    · rfl
    · simp only [List.nil_append, List.foldl_cons, List.foldl_nil]
      rw [if_pos ha]
  | cons x xs ih =>
    intro acc hlt hacc
    simp only [List.cons_append, List.foldl_cons]
    refine ih _ (fun y hy => hlt y (List.mem_cons_of_mem x hy)) ?_
    have hx := hlt x (List.mem_cons_self x xs)
    rcases hacc with rfl | ⟨a, rfl, ha⟩
    · exact Or.inr ⟨x, rfl, hx⟩
    · dsimp only
      split_ifs
      · exact Or.inr ⟨x, rfl, hx⟩
      · exact Or.inr ⟨a, rfl, ha⟩

/-- Reading the cache right after `cacheMempoolData` wrote a snapshot for the
pair — within the 3-second freshness window and with every pre-existing row
strictly older than the write — returns exactly that snapshot. -/
theorem getCached_after_write (cache : List CacheEntry) (pair : String) (s : Snapshot)
    (now now2 : ℤ)
    (hold : ∀ e ∈ cache, e.cachedAt < now)
    (h2 : now2 < now + 3) :
    getCachedMempoolData (cacheMempoolData cache pair s now) pair now2 = some s := by
  unfold getCachedMempoolData cacheMempoolData pickLatest
  rw [List.filter_append]
  have hlt : now2 - 3 < now := by omega
  have hnew : (([⟨pair, now, s⟩] : List CacheEntry).filter fun e =>
      decide (e.tokenPair = pair) && decide (now2 - 3 < e.cachedAt)) = [⟨pair, now, s⟩] := by
    simp [List.filter, hlt]
  rw [hnew]
  rw [pickLatest_strict_max ⟨pair, now, s⟩ _ none ?_ (Or.inl rfl)]
  · rfl
  · intro x hx
    have hx1 := (List.mem_filter.mp hx).1
    have hx2 := (List.mem_filter.mp hx1).1
    exact hold x hx2

/-- On a cache miss, a successful `getRealMempoolData` call stores its result
for the pair at the current second. -/
theorem getRealMempoolData_ok_cache (env : AggregatorEnv) (cache : List CacheEntry)
    (tokenIn tokenOut : String) (ug : Option ℚ) (s : Snapshot)
    (hmiss : getCachedMempoolData cache (tokenIn ++ "/" ++ tokenOut) (env.nowMs / 1000) = none)
    (hok : (getRealMempoolData env cache tokenIn tokenOut ug).1 = .ok s) :
    (getRealMempoolData env cache tokenIn tokenOut ug).2.1 =
      cacheMempoolData cache (tokenIn ++ "/" ++ tokenOut) s (env.nowMs / 1000) := by
  unfold getRealMempoolData at hok ⊢
  dsimp only at hok ⊢
  rw [hmiss] at hok ⊢
  rcases hch : tryFallbackChain env tokenIn tokenOut ug with ⟨r, tr⟩
  rw [hch] at hok
  dsimp only at hok ⊢
  rcases r with e | s2
  · exact absurd hok (by simp)
  · have hss : s2 = s := by
      simpa using hok
    rw [hss]

/-- C8.  If a call misses the cache and succeeds, then a second call for the
same pair within the 3-second cache TTL, with no intervening writes, returns
the identical snapshot straight from the cache and invokes no acquisition
strategy (empty strategy trace). -/
theorem C8_cache_idempotent (env env2 : AggregatorEnv) (cache : List CacheEntry)
    (tokenIn tokenOut : String) (ug ug2 : Option ℚ) (s : Snapshot)
    (hmiss : getCachedMempoolData cache (tokenIn ++ "/" ++ tokenOut) (env.nowMs / 1000) = none)
    (hok : (getRealMempoolData env cache tokenIn tokenOut ug).1 = .ok s)
    (hold : ∀ e ∈ cache, e.cachedAt < env.nowMs / 1000)
    (h2 : env2.nowMs / 1000 < env.nowMs / 1000 + 3) :
    getRealMempoolData env2 (getRealMempoolData env cache tokenIn tokenOut ug).2.1
        tokenIn tokenOut ug2 =
      (.ok s, (getRealMempoolData env cache tokenIn tokenOut ug).2.1, []) := by
  have hcache := getRealMempoolData_ok_cache env cache tokenIn tokenOut ug s hmiss hok
  rw [hcache]
  unfold getRealMempoolData
  dsimp only
  rw [getCached_after_write cache (tokenIn ++ "/" ++ tokenOut) s (env.nowMs / 1000)
    (env2.nowMs / 1000) hold h2]

/-- The C8 witness environment: reachable provider, every other source
failing, empty cache. -/
def c8Env : AggregatorEnv :=
  { nowMs := 1700000000000
    buffer := ⟨[], 0, false, "none"⟩
    blocknativeKey := false
    blocknative := none
    provider := .ok ()
    rpc := none
    recentBlocks := none }

/-- The same environment one second later. -/
def c8Env2 : AggregatorEnv := { c8Env with nowMs := 1700000001000 }

/-- Witness for C8: after the baseline snapshot is produced and cached at
t = 1700000000, the call one second later returns it from the cache with an
empty strategy trace. -/
theorem C8_cache_idempotent_witness :
    getRealMempoolData c8Env2 (getRealMempoolData c8Env [] "ETH" "USDT" none).2.1
        "ETH" "USDT" none =
      (.ok (getSimulatedMempoolData "ETH" "USDT" 1700000000),
       (getRealMempoolData c8Env [] "ETH" "USDT" none).2.1, []) :=
  C8_cache_idempotent c8Env c8Env2 [] "ETH" "USDT" none none
    (getSimulatedMempoolData "ETH" "USDT" 1700000000)
    rfl rfl (by simp) (by decide)

end MevScanner
